import Mathlib

/-!
Verification of the author-request approval workflow of the QuanLyBaiBao
backend (controllers/author/authorRequest.controller.js).

The database is embedded as a record of tables (lists of rows); every
awaited supabase call of a handler becomes one numbered operation of a
small state monad, so that storage failures can be injected at any single
operation, matching the sequential, non-transactional execution of the
source.  Sent emails are recorded in a log that is separate from the
database state; a failing email send is caught by the source handlers and
leaves no trace, which the embedding mirrors.

The repository contains two variants of the controller.  The richer
variant (createAuthorRequest / approveAuthorRequest / rejectAuthorRequest,
the one the specification designates as canonical) is embedded at top
level; the legacy submitAuthorRequest handler is embedded in namespace
Legacy.
-/

namespace QLBB

/-- Status and role literals used by the source. -/
def sPending : String := "pending"

def sApproved : String := "approved"

def sRejected : String := "rejected"

def sAdmin : String := "admin"

def sAuthor : String := "author"

def sAuthorRequest : String := "author_request"

def sArticle : String := "article"

def sJournal : String := "journal"

def sBook : String := "book"

structure User where
  id : Nat
  username : String
  email : String
  first_name : String
  last_name : String
  role : String
  deriving DecidableEq, Repr

structure Author where
  id : Nat
  user_id : Nat
  first_name : String
  last_name : String
  academic_title : String
  email : String
  institution_id : Option Nat
  deriving DecidableEq, Repr

structure Institution where
  id : Nat
  name : String
  type : String
  country : String
  city : String
  updated_by : Option Nat
  deriving DecidableEq, Repr

structure Article where
  id : Nat
  title : String
  content : String
  publish_date : String
  language : String
  subject_classification : String
  updated_by : Nat
  deriving DecidableEq, Repr

structure Journal where
  id : Nat
  name : String
  type : String
  issn : String
  language : String
  publish_date : String
  updated_by : Nat
  deriving DecidableEq, Repr

structure Book where
  id : Nat
  title : String
  isbn : String
  language : String
  publish_date : String
  publisher : String
  updated_by : Nat
  deriving DecidableEq, Repr

structure AuthorRequest where
  id : Nat
  user_id : Nat
  academic_title : String
  first_name : String
  last_name : String
  email : String
  bio : String
  reason_for_request : String
  status : String
  admin_notes : Option String
  reviewed_by : Option Nat
  created_at : Nat
  updated_at : Nat
  deriving DecidableEq, Repr

structure ReqArticle where
  id : Nat
  author_request_id : Nat
  title : String
  content : String
  publish_date : String
  language : String
  subject_classification : String
  deriving DecidableEq, Repr

structure ReqJournal where
  id : Nat
  author_request_id : Nat
  name : String
  type : String
  issn : String
  language : String
  publish_date : String
  deriving DecidableEq, Repr

structure ReqBook where
  id : Nat
  author_request_id : Nat
  title : String
  isbn : String
  language : String
  publish_date : String
  publisher : String
  deriving DecidableEq, Repr

structure ReqInstitution where
  id : Nat
  author_request_id : Nat
  name : String
  type : String
  country : String
  city : String
  deriving DecidableEq, Repr

structure FileRec where
  id : Nat
  content_type : Option String
  content_id : Option Nat
  deriving DecidableEq, Repr

/-- The database: one list per table, a counter for generated row ids and a
clock supplying the single timestamp of the current request. -/
structure St where
  users : List User
  authors : List Author
  institutions : List Institution
  articles : List Article
  journals : List Journal
  books : List Book
  author_articles : List (Nat × Nat)
  author_books : List (Nat × Nat)
  author_requests : List AuthorRequest
  author_request_articles : List ReqArticle
  author_request_journals : List ReqJournal
  author_request_books : List ReqBook
  author_request_institutions : List ReqInstitution
  files : List FileRec
  nextId : Nat
  now : Nat
  deriving DecidableEq, Repr

/-- Fault model for one handler invocation: failOps lists the indices of
the awaited storage operations that report an error, rpcOk says whether the
stored procedure approve_author_request_transaction exists and succeeds,
emailFails makes every outbound email send throw. -/
structure Env where
  failOps : List Nat
  rpcOk : Bool
  emailFails : Bool
  deriving DecidableEq, Repr

inductive EmailMsg where
  | approval (toEmail : String) (first_name : String)
  | rejection (toEmail : String) (first_name : String) (reason : String)
  | adminNotify (toEmails : List String) (request_id : Nat)
  deriving DecidableEq, Repr

structure Ctx where
  n : Nat
  s : St
  emails : List EmailMsg
  deriving Repr

inductive Out (α : Type) where
  | ok (a : α) (c : Ctx)
  | err (c : Ctx)

/-- Final context of a computation, whether it succeeded or threw. -/
def Out.ctx : Out α → Ctx
  | .ok _ c => c
  | .err c => c

/-- Whether an outcome is a thrown error. -/
def Out.isErr : Out α → Bool
  | .err _ => true
  | .ok _ _ => false

def M (α : Type) : Type := Ctx → Out α

def M.pure (a : α) : M α := fun c => .ok a c

def M.bind (x : M α) (f : α → M β) : M β := fun c =>
  match x c with
  | .ok a c2 => f a c2
  | .err c2 => .err c2

instance : Monad M where
  pure := M.pure
  bind := M.bind

/-- One awaited supabase call whose error object the handler inspects and
turns into a response of its own (the call itself never throws). -/
def dbCall (env : Env) (f : St → α × St) : M (Except Unit α) := fun c =>
  if env.failOps.contains c.n then
    .ok (.error ()) { c with n := c.n + 1 }
  else
    .ok (.ok (f c.s).1) { c with n := c.n + 1, s := (f c.s).2 }

/-- One awaited supabase call after which the handler throws on error
(the pattern `if (error) throw new Error(...)`). -/
def dbStep (env : Env) (f : St → α × St) : M α := fun c =>
  if env.failOps.contains c.n then
    .err { c with n := c.n + 1 }
  else
    .ok (f c.s).1 { c with n := c.n + 1, s := (f c.s).2 }

/-- One awaited supabase call whose error is only logged: the handler
continues either way (file retargeting inside the approval loops, the
admin-email lookup, the legacy child-row inserts). -/
def dbSoft (env : Env) (f : St → α × St) : M (Option α) := fun c =>
  if env.failOps.contains c.n then
    .ok none { c with n := c.n + 1 }
  else
    .ok (some (f c.s).1) { c with n := c.n + 1, s := (f c.s).2 }

/-- An outbound email; the source wraps every send in try/catch and only
logs a failure, so this operation never throws and a failed send is simply
not recorded. -/
def emailOp (env : Env) (m : EmailMsg) : M Unit := fun c =>
  if env.emailFails then .ok () c
  else .ok () { c with emails := c.emails ++ [m] }

inductive ErrKind where
  | validation
  | conflict
  | forbidden
  | notFound
  | dependency
  deriving DecidableEq, Repr

inductive RespData where
  | none
  | request (request_id : Nat)
  | approval (request_id : Nat) (author_id : Option Nat) (user_id : Nat)
  | rejection (request_id : Nat)
  deriving DecidableEq, Repr

structure Response where
  status : Nat
  success : Bool
  error : Option ErrKind
  data : RespData
  deriving DecidableEq, Repr

/-- The status code of a successful handler outcome. -/
def Out.statusOf : Out Response → Option Nat
  | .ok r _ => some r.status
  | .err _ => none

def resp404 : Response := ⟨404, false, some .notFound, .none⟩

def resp403 : Response := ⟨403, false, some .forbidden, .none⟩

def resp400v : Response := ⟨400, false, some .validation, .none⟩

def resp400c : Response := ⟨400, false, some .conflict, .none⟩

def resp400d : Response := ⟨400, false, some .dependency, .none⟩

def resp500 : Response := ⟨500, false, some .dependency, .none⟩

structure HResult where
  resp : Response
  s : St
  emails : List EmailMsg
  deriving Repr

/-- Runs a handler body from a fresh context; a thrown error is converted
by the surrounding catch block into a 500 response, keeping every state
effect already committed. -/
def runHandler (body : M Response) (s : St) : HResult :=
  match body { n := 0, s := s, emails := [] } with
  | .ok r c => ⟨r, c.s, c.emails⟩
  | .err c => ⟨resp500, c.s, c.emails⟩

/-! Table-level operations, one per supabase query of the handlers. -/

/-- The duplicate check of createAuthorRequest: requests of the submitter
whose status is pending or approved
(.eq user_id / .or status.eq.pending,status.eq.approved). -/
def checkDuplicateRequests (s : St) (uid : Nat) : List AuthorRequest :=
  s.author_requests.filter (fun r =>
    r.user_id == uid && (r.status == sPending || r.status == sApproved))

/-- Row built by the author_requests insert of createAuthorRequest; the
richer variant does not store an email on the request. -/
def newRequestRow (s : St) (uid : Nat) (academic_title first_name last_name
    bio reason_for_request : String) : AuthorRequest :=
  { id := s.nextId, user_id := uid, academic_title := academic_title,
    first_name := first_name, last_name := last_name, email := "",
    bio := bio, reason_for_request := reason_for_request,
    status := sPending, admin_notes := none, reviewed_by := none,
    created_at := s.now, updated_at := s.now }

def insertRequestRow (s : St) (r : AuthorRequest) : AuthorRequest × St :=
  (r, { s with author_requests := s.author_requests ++ [r],
                nextId := s.nextId + 1 })

structure ArticleInput where
  title : String
  content : String
  publish_date : String
  language : String
  subject_classification : String
  deriving DecidableEq, Repr

structure JournalInput where
  name : String
  type : String
  issn : String
  language : String
  publish_date : String
  deriving DecidableEq, Repr

structure BookInput where
  title : String
  isbn : String
  language : String
  publish_date : String
  publisher : String
  deriving DecidableEq, Repr

structure InstitutionInput where
  name : String
  type : String
  country : String
  city : String
  deriving DecidableEq, Repr

/-- Batch insert into author_request_articles (one supabase call). -/
def insertRequestArticles (s : St) (rid : Nat) (l : List ArticleInput) :
    Unit × St :=
  ((), l.foldl (fun s a =>
    { s with
      author_request_articles := s.author_request_articles ++
        [⟨s.nextId, rid, a.title, a.content, a.publish_date, a.language,
          a.subject_classification⟩],
      nextId := s.nextId + 1 }) s)

/-- Batch insert into author_request_journals (one supabase call). -/
def insertRequestJournals (s : St) (rid : Nat) (l : List JournalInput) :
    Unit × St :=
  ((), l.foldl (fun s j =>
    { s with
      author_request_journals := s.author_request_journals ++
        [⟨s.nextId, rid, j.name, j.type, j.issn, j.language,
          j.publish_date⟩],
      nextId := s.nextId + 1 }) s)

/-- Batch insert into author_request_books (one supabase call). -/
def insertRequestBooks (s : St) (rid : Nat) (l : List BookInput) :
    Unit × St :=
  ((), l.foldl (fun s b =>
    { s with
      author_request_books := s.author_request_books ++
        [⟨s.nextId, rid, b.title, b.isbn, b.language, b.publish_date,
          b.publisher⟩],
      nextId := s.nextId + 1 }) s)

/-- Batch insert into author_request_institutions (one supabase call). -/
def insertRequestInstitutions (s : St) (rid : Nat)
    (l : List InstitutionInput) : Unit × St :=
  ((), l.foldl (fun s i =>
    { s with
      author_request_institutions := s.author_request_institutions ++
        [⟨s.nextId, rid, i.name, i.type, i.country, i.city⟩],
      nextId := s.nextId + 1 }) s)

/-- files update of createAuthorRequest: tag the submitted file ids with
content_type author_request and content_id = request id (.in id file_ids). -/
def attachFilesToRequest (s : St) (file_ids : List Nat) (rid : Nat) :
    Unit × St :=
  ((), { s with files := s.files.map (fun f =>
      if file_ids.contains f.id then
        { f with content_type := some sAuthorRequest, content_id := some rid }
      else f) })

def getAdminEmails (s : St) : List String × St :=
  ((s.users.filter (fun u => u.role == sAdmin)).map (fun u => u.email), s)

/-- The approve fetch: the request row re-filtered by status = pending
(.eq id / .eq status pending .single), together with the joined user email
and the nested child rows the select pulls in. -/
structure FetchedRequest where
  req : AuthorRequest
  userEmail : String
  arts : List ReqArticle
  jous : List ReqJournal
  boks : List ReqBook
  insts : List ReqInstitution
  deriving DecidableEq, Repr

def fetchPending (s : St) (rid : Nat) : Option FetchedRequest :=
  (s.author_requests.find? (fun r => r.id == rid && r.status == sPending)).map
    (fun r =>
      ⟨r,
       (((s.users.find? (fun u => u.id == r.user_id)).map
          (fun u => u.email)).getD ""),
       s.author_request_articles.filter (fun a => a.author_request_id == r.id),
       s.author_request_journals.filter (fun j => j.author_request_id == r.id),
       s.author_request_books.filter (fun b => b.author_request_id == r.id),
       s.author_request_institutions.filter
         (fun i => i.author_request_id == r.id)⟩)

/-- The reject fetch: pending-filtered request row plus the joined user
email (no child rows are selected there). -/
def fetchPendingBasic (s : St) (rid : Nat) : Option (AuthorRequest × String) :=
  (s.author_requests.find? (fun r => r.id == rid && r.status == sPending)).map
    (fun r =>
      (r, (((s.users.find? (fun u => u.id == r.user_id)).map
          (fun u => u.email)).getD "")))

/-- Step 1 of the manual approval: authors.upsert keyed by the unique
user_id column with institution_id reset to null.  The authors table
schema with its unique key is database DDL not present under src/;
modelled from the spec (upsert keyed by user_id: update the existing row
for this user, insert a fresh row otherwise). -/
def upsertAuthor (s : St) (uid : Nat) (first_name last_name academic_title
    email : String) : Author × St :=
  match s.authors.find? (fun a => a.user_id == uid) with
  | some a =>
      let a2 : Author :=
        { a with first_name := first_name, last_name := last_name,
                 academic_title := academic_title, email := email,
                 institution_id := none }
      (a2, { s with authors := s.authors.map (fun x =>
          if x.user_id == uid then
            { x with first_name := first_name, last_name := last_name,
                     academic_title := academic_title, email := email,
                     institution_id := none }
          else x) })
  | none =>
      let a2 : Author :=
        ⟨s.nextId, uid, first_name, last_name, academic_title, email, none⟩
      (a2, { s with authors := s.authors ++ [a2], nextId := s.nextId + 1 })

/-- Step 2: users.update role = author (.eq id). -/
def updateUserRole (s : St) (uid : Nat) (role : String) : Unit × St :=
  ((), { s with users := s.users.map (fun u =>
      if u.id == uid then { u with role := role } else u) })

/-- Exact-match key used by the institution dedup lookup. -/
def instMatches (i : Institution) (name country city : String) : Bool :=
  i.name == name && i.country == country && i.city == city

/-- Institution lookup by exact (name, country, city) (.limit 1). -/
def findInstitution (s : St) (name country city : String) :
    Option Institution × St :=
  (s.institutions.find? (fun i => instMatches i name country city), s)

def insertInstitution (s : St) (i : ReqInstitution) (adminId : Nat) :
    Institution × St :=
  let row : Institution :=
    ⟨s.nextId, i.name, i.type, i.country, i.city, some adminId⟩
  (row, { s with institutions := s.institutions ++ [row],
                  nextId := s.nextId + 1 })

/-- authors.update institution_id (.eq id), run once per claimed
institution. -/
def updateAuthorInstitution (s : St) (authorId instId : Nat) : Unit × St :=
  ((), { s with authors := s.authors.map (fun a =>
      if a.id == authorId then { a with institution_id := some instId }
      else a) })

def insertArticleRow (s : St) (a : ReqArticle) (adminId : Nat) :
    Article × St :=
  let row : Article :=
    ⟨s.nextId, a.title, a.content, a.publish_date, a.language,
     a.subject_classification, adminId⟩
  (row, { s with articles := s.articles ++ [row], nextId := s.nextId + 1 })

def insertAuthorArticle (s : St) (authorId articleId : Nat) : Unit × St :=
  ((), { s with author_articles := s.author_articles ++
      [(authorId, articleId)] })

/-- Predicate of the file retarget filter
(.eq content_type author_request / .eq content_id request.id). -/
def fileClaimMatches (f : FileRec) (rid : Nat) : Bool :=
  f.content_type == some sAuthorRequest && f.content_id == some rid

/-- Row transformation of the file retarget update. -/
def retargetFun (rid : Nat) (ctype : String) (cid : Nat) (f : FileRec) :
    FileRec :=
  if fileClaimMatches f rid then
    { f with content_type := some ctype, content_id := some cid }
  else f

/-- files.update content_type/content_id on the rows still attached to the
request, run once per materialized article, journal and book. -/
def retargetRequestFiles (s : St) (rid : Nat) (ctype : String) (cid : Nat) :
    Unit × St :=
  ((), { s with files := s.files.map (retargetFun rid ctype cid) })

def insertJournalRow (s : St) (j : ReqJournal) (adminId : Nat) :
    Journal × St :=
  let row : Journal :=
    ⟨s.nextId, j.name, j.type, j.issn, j.language, j.publish_date, adminId⟩
  (row, { s with journals := s.journals ++ [row], nextId := s.nextId + 1 })

def insertBookRow (s : St) (b : ReqBook) (adminId : Nat) : Book × St :=
  let row : Book :=
    ⟨s.nextId, b.title, b.isbn, b.language, b.publish_date, b.publisher,
     adminId⟩
  (row, { s with books := s.books ++ [row], nextId := s.nextId + 1 })

def insertAuthorBook (s : St) (authorId bookId : Nat) : Unit × St :=
  ((), { s with author_books := s.author_books ++ [(authorId, bookId)] })

/-- Step 7: author_requests.update status = approved (.eq id).  A missing
admin_notes key is dropped from the JSON payload by the client library, so
the column keeps its value in that case. -/
def updateRequestApproved (s : St) (rid : Nat) (notes : Option String)
    (adminId : Nat) : Unit × St :=
  ((), { s with author_requests := s.author_requests.map (fun r =>
      if r.id == rid then
        { r with status := sApproved,
                 admin_notes := match notes with
                   | none => r.admin_notes
                   | some v => some v,
                 reviewed_by := some adminId, updated_at := s.now }
      else r) })

/-- The reject update: status = rejected, admin_notes, reviewed_by,
updated_at (.eq id); admin_notes is always present there because the
handler has already validated it. -/
def updateRequestRejected (s : St) (rid : Nat) (notes : Option String)
    (adminId : Nat) : Unit × St :=
  ((), { s with author_requests := s.author_requests.map (fun r =>
      if r.id == rid then
        { r with status := sRejected, admin_notes := notes,
                 reviewed_by := some adminId, updated_at := s.now }
      else r) })

/-! The handlers of the richer controller variant. -/

structure CreatePayload where
  academic_title : String
  first_name : String
  last_name : String
  bio : String
  reason_for_request : String
  articles : List ArticleInput
  journals : List JournalInput
  books : List BookInput
  institutions : List InstitutionInput
  file_ids : List Nat
  deriving DecidableEq, Repr

/-- The insert sequence of createAuthorRequest, reached once validation,
the duplicate check and the role check have passed.  Each batch insert is
skipped when its input list is empty, exactly as the source guards with
length > 0; every insert error is thrown, while the admin-notification
lookup and send are wrapped in try/catch and never fail the request. -/
def createInsertSeq (env : Env) (caller : User) (p : CreatePayload) :
    M Response := do
  let ar ← dbStep env (fun s => insertRequestRow s
    (newRequestRow s caller.id p.academic_title p.first_name p.last_name
      p.bio p.reason_for_request))
  let _ ← if p.articles.isEmpty then M.pure () else do
      let _ ← dbStep env (fun s => insertRequestArticles s ar.id p.articles)
      M.pure ()
  let _ ← if p.journals.isEmpty then M.pure () else do
      let _ ← dbStep env (fun s => insertRequestJournals s ar.id p.journals)
      M.pure ()
  let _ ← if p.books.isEmpty then M.pure () else do
      let _ ← dbStep env (fun s => insertRequestBooks s ar.id p.books)
      M.pure ()
  let _ ← if p.institutions.isEmpty then M.pure () else do
      let _ ← dbStep env (fun s =>
        insertRequestInstitutions s ar.id p.institutions)
      M.pure ()
  let _ ← if p.file_ids.isEmpty then M.pure () else do
      let _ ← dbStep env (fun s => attachFilesToRequest s p.file_ids ar.id)
      M.pure ()
  let _ ← dbStep env (fun s => (ar.id, s))
  let admins ← dbSoft env getAdminEmails
  let _ ← match admins with
    | some l => if l.isEmpty then M.pure ()
                else emailOp env (.adminNotify l ar.id)
    | none => M.pure ()
  M.pure ⟨201, true, none, .request ar.id⟩

/-- createAuthorRequest: validate first and last name, reject a submitter
who already has a pending or approved request or already holds the author
or admin role, then insert the request with its children. -/
def createBody (env : Env) (caller : User) (p : CreatePayload) :
    M Response :=
  if p.first_name == "" || p.last_name == "" then M.pure resp400v
  else do
    let chk ← dbCall env (fun s => (checkDuplicateRequests s caller.id, s))
    match chk with
    | .error _ => M.pure resp400d
    | .ok existing =>
        if !existing.isEmpty && existing.any (fun r => r.status == sPending)
        then M.pure resp400c
        else if !existing.isEmpty &&
            existing.any (fun r => r.status == sApproved)
        then M.pure resp400c
        else if caller.role == sAuthor || caller.role == sAdmin then
          M.pure resp400c
        else createInsertSeq env caller p

def createAuthorRequest (env : Env) (caller : User) (p : CreatePayload)
    (s : St) : HResult :=
  runHandler (createBody env caller p) s

/-- Resolution of one claimed institution: reuse an exact
(name, country, city) match, insert a fresh row otherwise. -/
def resolveInstitutionId (s : St) (i : ReqInstitution) (adminId : Nat) :
    Nat × St :=
  match (findInstitution s i.name i.country i.city).1 with
  | some ex => (ex.id, s)
  | none =>
      let q := insertInstitution s i adminId
      (q.1.id, q.2)

/-- Pure mirror of step 3 (institution loop): per claimed institution,
resolve the id by dedup and overwrite the author row's institution_id. -/
def instFold (authorId adminId : Nat) : List ReqInstitution → St → St
  | [], s => s
  | i :: rest, s =>
      let q := resolveInstitutionId s i adminId
      instFold authorId adminId rest
        (updateAuthorInstitution q.2 authorId q.1).2

/-- Pure mirror of step 4 (article loop): insert, link, retarget. -/
def articleFold (authorId rid adminId : Nat) : List ReqArticle → St → St
  | [], s => s
  | a :: rest, s =>
      let q := insertArticleRow s a adminId
      let s2 := (insertAuthorArticle q.2 authorId q.1.id).2
      articleFold authorId rid adminId rest
        (retargetRequestFiles s2 rid sArticle q.1.id).2

/-- Pure mirror of step 5 (journal loop): insert, retarget, no link. -/
def journalFold (rid adminId : Nat) : List ReqJournal → St → St
  | [], s => s
  | j :: rest, s =>
      let q := insertJournalRow s j adminId
      journalFold rid adminId rest
        (retargetRequestFiles q.2 rid sJournal q.1.id).2

/-- Pure mirror of step 6 (book loop): insert, link, retarget. -/
def bookFold (authorId rid adminId : Nat) : List ReqBook → St → St
  | [], s => s
  | b :: rest, s =>
      let q := insertBookRow s b adminId
      let s2 := (insertAuthorBook q.2 authorId q.1.id).2
      bookFold authorId rid adminId rest
        (retargetRequestFiles s2 rid sBook q.1.id).2

/-- Operation counter of the institution loop: the dedup lookup plus the
author update, with one extra insert when the lookup misses.  Used only to
track operation indices in the fault-free characterization lemmas. -/
def instN (authorId adminId : Nat) : List ReqInstitution → St → Nat → Nat
  | [], _, n => n
  | i :: rest, s, n =>
      match (findInstitution s i.name i.country i.city).1 with
      | some ex =>
          instN authorId adminId rest
            (updateAuthorInstitution s authorId ex.id).2 (n + 1 + 1)
      | none =>
          let q := insertInstitution s i adminId
          instN authorId adminId rest
            (updateAuthorInstitution q.2 authorId q.1.id).2 (n + 1 + 1 + 1)

/-- Operation counter of the article loop: three operations per item. -/
def artN : List ReqArticle → Nat → Nat
  | [], n => n
  | _ :: rest, n => artN rest (n + 1 + 1 + 1)

/-- Operation counter of the journal loop: two operations per item. -/
def jouN : List ReqJournal → Nat → Nat
  | [], n => n
  | _ :: rest, n => jouN rest (n + 1 + 1)

/-- Operation counter of the book loop: three operations per item. -/
def bokN : List ReqBook → Nat → Nat
  | [], n => n
  | _ :: rest, n => bokN rest (n + 1 + 1 + 1)

/-- Modelled from the spec: the stored procedure
approve_author_request_transaction is database-side code that is not
present under src/; per the spec it performs approval steps 1 through 6
(author upsert, role promotion, institution dedup, article/journal/book
materialization with file retargeting, request status update) in a single
transaction.  Each step is modelled with the same table operations the
fallback path uses. -/
def approveTransactionProc (f : FetchedRequest) (adminId : Nat)
    (notes : String) (s : St) : St :=
  let p := upsertAuthor s f.req.user_id f.req.first_name f.req.last_name
    f.req.academic_title f.userEmail
  let s1 := (updateUserRole p.2 f.req.user_id sAuthor).2
  let s2 := instFold p.1.id adminId f.insts s1
  let s3 := articleFold p.1.id f.req.id adminId f.arts s2
  let s4 := journalFold f.req.id adminId f.jous s3
  let s5 := bookFold p.1.id f.req.id adminId f.boks s4
  (updateRequestApproved s5 f.req.id (some notes) adminId).2

/-- Pure mirror of the whole manual approval sequence: returns the new
author id together with the final state. -/
def approveManualResult (f : FetchedRequest) (adminId rid : Nat)
    (notes : Option String) (s : St) : Nat × St :=
  let p := upsertAuthor s f.req.user_id f.req.first_name f.req.last_name
    f.req.academic_title f.userEmail
  let s1 := (updateUserRole p.2 f.req.user_id sAuthor).2
  let s2 := instFold p.1.id adminId f.insts s1
  let s3 := articleFold p.1.id f.req.id adminId f.arts s2
  let s4 := journalFold f.req.id adminId f.jous s3
  let s5 := bookFold p.1.id f.req.id adminId f.boks s4
  (p.1.id, (updateRequestApproved s5 rid notes adminId).2)

/-- The supabase.rpc fast-path attempt: when the stored procedure is
available and succeeds it commits the whole approval; any rpc error or
exception makes the handler continue with the manual sequence. -/
def rpcCall (env : Env) (f : FetchedRequest) (adminId : Nat)
    (notes : Option String) : M Bool := fun c =>
  if env.rpcOk && !(env.failOps.contains c.n) then
    .ok true { c with n := c.n + 1,
                      s := approveTransactionProc f adminId
                        (notes.getD "") c.s }
  else
    .ok false { c with n := c.n + 1 }

/-- Step 3 of the manual approval: per claimed institution, dedup lookup,
conditional insert, then overwrite of the author row's institution_id. -/
def instLoop (env : Env) (authorId adminId : Nat) :
    List ReqInstitution → M Unit
  | [] => M.pure ()
  | i :: rest => do
      let found ← dbStep env (fun s =>
        findInstitution s i.name i.country i.city)
      let instId ← match found with
        | some ex => M.pure ex.id
        | none => do
            let row ← dbStep env (fun s => insertInstitution s i adminId)
            M.pure row.id
      let _ ← dbStep env (fun s =>
        updateAuthorInstitution s authorId instId)
      instLoop env authorId adminId rest

/-- Step 4: per claimed article, insert the canonical article, link it to
the author, and retarget the request files (retarget errors are only
logged). -/
def articleLoop (env : Env) (authorId rid adminId : Nat) :
    List ReqArticle → M Unit
  | [] => M.pure ()
  | a :: rest => do
      let row ← dbStep env (fun s => insertArticleRow s a adminId)
      let _ ← dbStep env (fun s => insertAuthorArticle s authorId row.id)
      let _ ← dbSoft env (fun s =>
        retargetRequestFiles s rid sArticle row.id)
      articleLoop env authorId rid adminId rest

/-- Step 5: per claimed journal, insert and retarget files; journals are
not linked back to the author. -/
def journalLoop (env : Env) (rid adminId : Nat) : List ReqJournal → M Unit
  | [] => M.pure ()
  | j :: rest => do
      let row ← dbStep env (fun s => insertJournalRow s j adminId)
      let _ ← dbSoft env (fun s =>
        retargetRequestFiles s rid sJournal row.id)
      journalLoop env rid adminId rest

/-- Step 6: per claimed book, insert, link to the author, retarget
files. -/
def bookLoop (env : Env) (authorId rid adminId : Nat) :
    List ReqBook → M Unit
  | [] => M.pure ()
  | b :: rest => do
      let row ← dbStep env (fun s => insertBookRow s b adminId)
      let _ ← dbStep env (fun s => insertAuthorBook s authorId row.id)
      let _ ← dbSoft env (fun s => retargetRequestFiles s rid sBook row.id)
      bookLoop env authorId rid adminId rest

/-- The manual (non-RPC) approval sequence, steps 1 through 8 of the
source; every step error throws except the file retargets and the final
email. -/
def approveFallback (env : Env) (adminId rid : Nat) (f : FetchedRequest)
    (notes : Option String) : M Response := do
  let au ← dbStep env (fun s => upsertAuthor s f.req.user_id
    f.req.first_name f.req.last_name f.req.academic_title f.userEmail)
  let _ ← dbStep env (fun s => updateUserRole s f.req.user_id sAuthor)
  let _ ← instLoop env au.id adminId f.insts
  let _ ← articleLoop env au.id f.req.id adminId f.arts
  let _ ← journalLoop env f.req.id adminId f.jous
  let _ ← bookLoop env au.id f.req.id adminId f.boks
  let _ ← dbStep env (fun s => updateRequestApproved s rid notes adminId)
  let _ ← emailOp env (.approval f.userEmail f.req.first_name)
  M.pure ⟨200, true, none, .approval rid (some au.id) f.req.user_id⟩

/-- approveAuthorRequest: admin gate, pending-filtered fetch, stored
procedure attempt, manual fallback.  The RPC success response carries only
request_id and user_id. -/
def approveBody (env : Env) (caller : User) (rid : Nat)
    (notes : Option String) : M Response :=
  if caller.role == sAdmin then do
    let fr ← dbCall env (fun s => (fetchPending s rid, s))
    match fr with
    | .error _ => M.pure resp404
    | .ok none => M.pure resp404
    | .ok (some f) => do
        let rpcDone ← rpcCall env f caller.id notes
        if rpcDone then do
          let _ ← emailOp env (.approval f.userEmail f.req.first_name)
          M.pure ⟨200, true, none, .approval rid none f.req.user_id⟩
        else approveFallback env caller.id rid f notes
  else M.pure resp403

def approveAuthorRequest (env : Env) (caller : User) (rid : Nat)
    (notes : Option String) (s : St) : HResult :=
  runHandler (approveBody env caller rid notes) s

/-- rejectAuthorRequest: reason validation (a missing or empty admin_notes
is falsy), admin gate, pending-filtered fetch, single-row update,
best-effort rejection email. -/
def rejectBody (env : Env) (caller : User) (rid : Nat)
    (notes : Option String) : M Response :=
  if notes == none || notes == some "" then M.pure resp400v
  else if caller.role == sAdmin then do
    let fr ← dbCall env (fun s => (fetchPendingBasic s rid, s))
    match fr with
    | .error _ => M.pure resp404
    | .ok none => M.pure resp404
    | .ok (some rq) => do
        let _ ← dbStep env (fun s =>
          updateRequestRejected s rid notes caller.id)
        let _ ← emailOp env (.rejection rq.2 rq.1.first_name (notes.getD ""))
        M.pure ⟨200, true, none, .rejection rid⟩
  else M.pure resp403

def rejectAuthorRequest (env : Env) (caller : User) (rid : Nat)
    (notes : Option String) (s : St) : HResult :=
  runHandler (rejectBody env caller rid notes) s

namespace Legacy

/-! The legacy controller variant routed at POST /author-requests. -/

structure SubmitPayload where
  academic_title : String
  first_name : String
  last_name : String
  email : String
  bio : String
  reason_for_request : String
  institution : Option InstitutionInput
  books : List BookInput
  articles : List ArticleInput
  journals : List JournalInput
  deriving DecidableEq, Repr

/-- The legacy duplicate check only looks at the submitter's most recent
request (.order created_at desc / .limit 1). -/
def latestRequestOf (s : St) (uid : Nat) : Option AuthorRequest :=
  (s.author_requests.filter (fun r => r.user_id == uid)).foldl
    (fun acc r => match acc with
      | none => some r
      | some m => if m.created_at < r.created_at then some r else some m)
    none

/-- Row inserted by the legacy submit handler (it does store an email). -/
def newLegacyRow (s : St) (uid : Nat) (p : SubmitPayload) : AuthorRequest :=
  { id := s.nextId, user_id := uid, academic_title := p.academic_title,
    first_name := p.first_name, last_name := p.last_name, email := p.email,
    bio := p.bio, reason_for_request := p.reason_for_request,
    status := sPending, admin_notes := none, reviewed_by := none,
    created_at := s.now, updated_at := s.now }

/-- The legacy child inserts go through Promise.all with one insert per
item and their errors are never inspected. -/
def bookSoftLoop (env : Env) (rid : Nat) : List BookInput → M Unit
  | [] => M.pure ()
  | b :: rest => do
      let _ ← dbSoft env (fun s => insertRequestBooks s rid [b])
      bookSoftLoop env rid rest

def articleSoftLoop (env : Env) (rid : Nat) : List ArticleInput → M Unit
  | [] => M.pure ()
  | a :: rest => do
      let _ ← dbSoft env (fun s => insertRequestArticles s rid [a])
      articleSoftLoop env rid rest

def journalSoftLoop (env : Env) (rid : Nat) : List JournalInput → M Unit
  | [] => M.pure ()
  | j :: rest => do
      let _ ← dbSoft env (fun s => insertRequestJournals s rid [j])
      journalSoftLoop env rid rest

/-- submitAuthorRequest (legacy): requires first_name, email and
reason_for_request; rejects only when the most recent request of the
submitter is pending; no role check; a check-query error is ignored and
the handler proceeds. -/
def submitBody (env : Env) (caller : User) (p : SubmitPayload) :
    M Response :=
  if p.first_name == "" || p.email == "" || p.reason_for_request == ""
  then M.pure resp400v
  else do
    let chk ← dbCall env (fun s => (latestRequestOf s caller.id, s))
    let pendingLatest := match chk with
      | .ok (some r) => r.status == sPending
      | _ => false
    if pendingLatest then M.pure resp400c
    else do
      let ins ← dbCall env (fun s =>
        insertRequestRow s (newLegacyRow s caller.id p))
      match ins with
      | .error _ => M.pure resp400d
      | .ok ar => do
          let _ ← match p.institution with
            | some i => do
                let _ ← dbSoft env (fun s =>
                  insertRequestInstitutions s ar.id [i])
                M.pure ()
            | none => M.pure ()
          let _ ← bookSoftLoop env ar.id p.books
          let _ ← articleSoftLoop env ar.id p.articles
          let _ ← journalSoftLoop env ar.id p.journals
          M.pure ⟨201, true, none, .request ar.id⟩

def submitAuthorRequest (env : Env) (caller : User) (p : SubmitPayload)
    (s : St) : HResult :=
  runHandler (submitBody env caller p) s

end Legacy

/-! Observers over the database state. -/

/-- Role of the user row the .eq id lookup returns. -/
def userRole (s : St) (uid : Nat) : Option String :=
  (s.users.find? (fun u => u.id == uid)).map (fun u => u.role)

/-- Status of the request row the .eq id lookup returns. -/
def reqStatus (s : St) (rid : Nat) : Option String :=
  (s.author_requests.find? (fun r => r.id == rid)).map (fun r => r.status)

def reqReviewedBy (s : St) (rid : Nat) : Option (Option Nat) :=
  (s.author_requests.find? (fun r => r.id == rid)).map
    (fun r => r.reviewed_by)

/-- Whether an authors row for the given user exists. -/
def hasAuthorFor (s : St) (uid : Nat) : Bool :=
  s.authors.any (fun a => a.user_id == uid)

/-- Number of institution rows with the given exact (name, country, city)
key. -/
def countInstKey (s : St) (name country city : String) : Nat :=
  (s.institutions.filter (fun i => instMatches i name country city)).length

/-- True when no file is still attached to the given author request. -/
def noClaimFiles (l : List FileRec) (rid : Nat) : Bool :=
  l.all (fun f => !(fileClaimMatches f rid))

/-- The canonical article rows a list of claimed articles materializes to,
given the admin id and the first generated row id. -/
def mkArticles (adminId : Nat) : Nat → List ReqArticle → List Article
  | _, [] => []
  | n, a :: rest =>
      ⟨n, a.title, a.content, a.publish_date, a.language,
       a.subject_classification, adminId⟩ :: mkArticles adminId (n + 1) rest

/-! Relations used by the proofs: database-equivalence of outcomes
(ignoring the email log) and preservation of a state predicate. -/

def SameDB : Out α → Out α → Prop
  | .ok a c, .ok a2 c2 => a = a2 ∧ c.n = c2.n ∧ c.s = c2.s
  | .err c, .err c2 => c.n = c2.n ∧ c.s = c2.s
  | _, _ => False

/-- Two computations that produce identical results and identical database
states whenever started from contexts agreeing on counter and state (their
email logs may differ). -/
def MEq (x y : M α) : Prop :=
  ∀ c c2 : Ctx, c.n = c2.n → c.s = c2.s → SameDB (x c) (y c2)

/-- A state predicate that survives a computation, whether it succeeds or
throws. -/
def MPreserves (x : M α) (P : St → Prop) : Prop :=
  ∀ c : Ctx, P c.s → P ((x c).ctx.s)

/-! Concrete fixtures used by witnesses and counterexamples. -/

/-- Fault-free environment without the stored procedure. -/
def envNF : Env := ⟨[], false, false⟩

/-- Fault-free environment in which the stored procedure succeeds. -/
def envRPC : Env := ⟨[], true, false⟩

/-- Environment that fails the first article insert of the manual approval
sequence (operation 4: fetch 0, rpc 1, upsert 2, role 3, insert 4). -/
def envFailArt : Env := ⟨[4], false, false⟩

/-- Environment that fails the author_request_articles insert of
createAuthorRequest (operation 2: duplicate check 0, request insert 1,
articles insert 2). -/
def envFailChild : Env := ⟨[2], false, false⟩

def adminU : User := ⟨1, "admin", "a@x", "Ad", "Min", "admin"⟩

def reqU : User := ⟨2, "ada", "ada@x", "Ada", "Lovelace", "user"⟩

def otherU : User := ⟨3, "bob", "bob@x", "Bob", "Stone", "user"⟩

def req10 : AuthorRequest :=
  ⟨10, 2, "Dr", "Ada", "Lovelace", "", "bio", "why", "pending",
   none, none, 40, 40⟩

def req11 : AuthorRequest :=
  ⟨11, 3, "Mr", "Bob", "Stone", "", "b", "r", "pending",
   none, none, 41, 41⟩

def ra1 : ReqArticle := ⟨20, 10, "T1", "c1", "2020", "en", "cs"⟩

def ra2 : ReqArticle := ⟨21, 10, "T2", "c2", "2021", "en", "cs"⟩

def ri1 : ReqInstitution := ⟨30, 10, "MIT", "uni", "US", "Cambridge"⟩

def ri2 : ReqInstitution := ⟨31, 10, "ENS", "uni", "FR", "Paris"⟩

def ri3 : ReqInstitution := ⟨32, 11, "MIT", "uni", "US", "Cambridge"⟩

def file5 : FileRec := ⟨5, some sAuthorRequest, some 10⟩

/-- A pending request of user 2 with two claimed articles and one attached
file. -/
def st0 : St :=
  { users := [adminU, reqU], authors := [], institutions := [],
    articles := [], journals := [], books := [],
    author_articles := [], author_books := [],
    author_requests := [req10],
    author_request_articles := [ra1, ra2],
    author_request_journals := [], author_request_books := [],
    author_request_institutions := [], files := [file5],
    nextId := 100, now := 50 }

/-- Two pending requests of different users, each claiming the same
institution key (MIT, US, Cambridge); user 2 also claims a second one. -/
def st6 : St :=
  { users := [adminU, reqU, otherU], authors := [], institutions := [],
    articles := [], journals := [], books := [],
    author_articles := [], author_books := [],
    author_requests := [req10, req11],
    author_request_articles := [],
    author_request_journals := [], author_request_books := [],
    author_request_institutions := [ri1, ri2, ri3], files := [],
    nextId := 100, now := 50 }

/-- No requests yet; one unattached file. -/
def stE : St :=
  { users := [adminU, reqU], authors := [], institutions := [],
    articles := [], journals := [], books := [],
    author_articles := [], author_books := [],
    author_requests := [],
    author_request_articles := [],
    author_request_journals := [], author_request_books := [],
    author_request_institutions := [], files := [⟨7, none, none⟩],
    nextId := 100, now := 50 }

/-- User 2 already has an approved request. -/
def stApproved : St :=
  { stE with author_requests := [{ req10 with status := sApproved }] }

/-- The fetched form of request 10 in st0. -/
def fet0 : FetchedRequest := ⟨req10, "ada@x", [ra1, ra2], [], [], []⟩

/-- The fetched form of request 10 in st6. -/
def fet6 : FetchedRequest := ⟨req10, "ada@x", [], [], [], [ri1, ri2]⟩

def pC : CreatePayload :=
  ⟨"Dr", "Ada", "Lovelace", "b", "r", [⟨"A1", "c", "d", "en", "cs"⟩],
   [], [], [], [7]⟩

def pL : Legacy.SubmitPayload :=
  ⟨"Dr", "Ada", "Lovelace", "ada@x", "b", "r", none, [], [], []⟩

end QLBB

namespace QLBB

/-! Basic computation lemmas for the monad and the primitive operations. -/

@[simp] theorem M_bind_apply (x : M α) (f : α → M β) (c : Ctx) :
    (x >>= f) c =
      match x c with
      | .ok a c2 => f a c2
      | .err c2 => Out.err c2 := rfl

@[simp] theorem M_pure_apply (a : α) (c : Ctx) :
    (M.pure a : M α) c = Out.ok a c := rfl

@[simp] theorem Out_ctx_ok (a : α) (c : Ctx) : (Out.ok a c).ctx = c := rfl

@[simp] theorem Out_ctx_err (c : Ctx) : (Out.err c : Out α).ctx = c := rfl

theorem dbStep_noFault (env : Env) (h : env.failOps = [])
    (f : St → α × St) (c : Ctx) :
    dbStep env f c =
      .ok (f c.s).1 { c with n := c.n + 1, s := (f c.s).2 } := by
  simp [dbStep, h]

theorem dbSoft_noFault (env : Env) (h : env.failOps = [])
    (f : St → α × St) (c : Ctx) :
    dbSoft env f c =
      .ok (some (f c.s).1) { c with n := c.n + 1, s := (f c.s).2 } := by
  simp [dbSoft, h]

theorem dbCall_noFault (env : Env) (h : env.failOps = [])
    (f : St → α × St) (c : Ctx) :
    dbCall env f c =
      .ok (.ok (f c.s).1) { c with n := c.n + 1, s := (f c.s).2 } := by
  simp [dbCall, h]

theorem rpcCall_off (env : Env) (h : env.rpcOk = false)
    (f : FetchedRequest) (adminId : Nat) (notes : Option String) (c : Ctx) :
    rpcCall env f adminId notes c = .ok false { c with n := c.n + 1 } := by
  simp [rpcCall, h]

/-! Preservation combinators. -/

theorem MPreserves_pure (a : α) (P : St → Prop) :
    MPreserves (M.pure a : M α) P := fun _ h => h

theorem MPreserves_bind {x : M α} {f : α → M β} {P : St → Prop}
    (hx : MPreserves x P) (hf : ∀ a, MPreserves (f a) P) :
    MPreserves (x >>= f) P := by
  intro c h
  have hx2 := hx c h
  rw [show ((x >>= f) c) =
      (match x c with
       | .ok a c2 => f a c2
       | .err c2 => Out.err c2) from rfl]
  cases hxc : x c with
  | ok a c2 =>
      rw [hxc] at hx2
      exact hf a c2 hx2
  | err c2 =>
      rw [hxc] at hx2
      exact hx2

theorem MPreserves_dbStep (env : Env) (f : St → α × St) (P : St → Prop)
    (hf : ∀ s, P s → P (f s).2) : MPreserves (dbStep env f) P := by
  intro c h
  unfold dbStep
  split
  · exact h
  · exact hf c.s h

theorem MPreserves_dbSoft (env : Env) (f : St → α × St) (P : St → Prop)
    (hf : ∀ s, P s → P (f s).2) : MPreserves (dbSoft env f) P := by
  intro c h
  unfold dbSoft
  split
  · exact h
  · exact hf c.s h

theorem MPreserves_dbCall (env : Env) (f : St → α × St) (P : St → Prop)
    (hf : ∀ s, P s → P (f s).2) : MPreserves (dbCall env f) P := by
  intro c h
  unfold dbCall
  split
  · exact h
  · exact hf c.s h

theorem MPreserves_email (env : Env) (m : EmailMsg) (P : St → Prop) :
    MPreserves (emailOp env m) P := by
  intro c h
  unfold emailOp
  split
  · exact h
  · exact h

/-- Every database write of the institution loop leaves the given state
predicate intact provided the two mutating table operations do. -/
theorem MPreserves_instLoop (env : Env) (authorId adminId : Nat)
    (P : St → Prop)
    (hIns : ∀ s i, P s → P (insertInstitution s i adminId).2)
    (hUpd : ∀ s instId, P s → P (updateAuthorInstitution s authorId instId).2) :
    ∀ is : List ReqInstitution,
      MPreserves (instLoop env authorId adminId is) P := by
  intro is
  induction is with
  | nil => exact MPreserves_pure () P
  | cons i rest ih =>
      simp only [instLoop]
      refine MPreserves_bind (MPreserves_dbStep env _ P (fun s h => h))
        (fun found => ?_)
      cases found with
      | some ex =>
          exact MPreserves_bind (MPreserves_pure ex.id P) (fun y =>
            MPreserves_bind
              (MPreserves_dbStep env _ P (fun s h => hUpd s y h))
              (fun _ => ih))
      | none =>
          exact MPreserves_bind
            (MPreserves_dbStep env _ P (fun s h => hIns s i h))
            (fun ex => MPreserves_bind (MPreserves_pure ex.id P) (fun y =>
              MPreserves_bind
                (MPreserves_dbStep env _ P (fun s h => hUpd s y h))
                (fun _ => ih)))

theorem MPreserves_articleLoop (env : Env) (authorId rid adminId : Nat)
    (P : St → Prop)
    (hIns : ∀ s a, P s → P (insertArticleRow s a adminId).2)
    (hLink : ∀ s i j, P s → P (insertAuthorArticle s i j).2)
    (hRet : ∀ s t i, P s → P (retargetRequestFiles s rid t i).2) :
    ∀ as : List ReqArticle,
      MPreserves (articleLoop env authorId rid adminId as) P := by
  intro as
  induction as with
  | nil => exact MPreserves_pure () P
  | cons a rest ih =>
      simp only [articleLoop]
      refine MPreserves_bind (MPreserves_dbStep env _ P (fun s h => hIns s a h))
        (fun row => ?_)
      refine MPreserves_bind
        (MPreserves_dbStep env _ P (fun s h => hLink s authorId row.id h))
        (fun _ => ?_)
      exact MPreserves_bind
        (MPreserves_dbSoft env _ P (fun s h => hRet s sArticle row.id h))
        (fun _ => ih)

theorem MPreserves_journalLoop (env : Env) (rid adminId : Nat)
    (P : St → Prop)
    (hIns : ∀ s j, P s → P (insertJournalRow s j adminId).2)
    (hRet : ∀ s t i, P s → P (retargetRequestFiles s rid t i).2) :
    ∀ js : List ReqJournal,
      MPreserves (journalLoop env rid adminId js) P := by
  intro js
  induction js with
  | nil => exact MPreserves_pure () P
  | cons j rest ih =>
      simp only [journalLoop]
      refine MPreserves_bind (MPreserves_dbStep env _ P (fun s h => hIns s j h))
        (fun row => ?_)
      exact MPreserves_bind
        (MPreserves_dbSoft env _ P (fun s h => hRet s sJournal row.id h))
        (fun _ => ih)

theorem MPreserves_bookLoop (env : Env) (authorId rid adminId : Nat)
    (P : St → Prop)
    (hIns : ∀ s b, P s → P (insertBookRow s b adminId).2)
    (hLink : ∀ s i j, P s → P (insertAuthorBook s i j).2)
    (hRet : ∀ s t i, P s → P (retargetRequestFiles s rid t i).2) :
    ∀ bs : List ReqBook,
      MPreserves (bookLoop env authorId rid adminId bs) P := by
  intro bs
  induction bs with
  | nil => exact MPreserves_pure () P
  | cons b rest ih =>
      simp only [bookLoop]
      refine MPreserves_bind (MPreserves_dbStep env _ P (fun s h => hIns s b h))
        (fun row => ?_)
      refine MPreserves_bind
        (MPreserves_dbStep env _ P (fun s h => hLink s authorId row.id h))
        (fun _ => ?_)
      exact MPreserves_bind
        (MPreserves_dbSoft env _ P (fun s h => hRet s sBook row.id h))
        (fun _ => ih)

end QLBB

namespace QLBB

/-! Fault-free runs compute the pure folds. -/

@[simp] theorem findInstitution_fst (s : St) (n co ci : String) :
    (findInstitution s n co ci).1 =
      s.institutions.find? (fun i => instMatches i n co ci) := rfl

@[simp] theorem findInstitution_snd (s : St) (n co ci : String) :
    (findInstitution s n co ci).2 = s := rfl

theorem instLoop_noFault (env : Env) (h : env.failOps = [])
    (authorId adminId : Nat) :
    ∀ (is : List ReqInstitution) (n : Nat) (s : St) (em : List EmailMsg),
      instLoop env authorId adminId is ⟨n, s, em⟩ =
        .ok () ⟨instN authorId adminId is s n,
                instFold authorId adminId is s, em⟩ := by
  intro is
  induction is with
  | nil => intro n s em; rfl
  | cons i rest ih =>
      intro n s em
      simp only [instLoop, M_bind_apply, dbStep_noFault env h, M_pure_apply,
        findInstitution_fst, findInstitution_snd]
      cases hfind : s.institutions.find?
          (fun x => instMatches x i.name i.country i.city) with
      | some ex =>
          simp only [hfind, M_bind_apply, M_pure_apply,
            dbStep_noFault env h, instFold, instN, resolveInstitutionId,
            findInstitution_fst, findInstitution_snd]
          exact ih _ _ _
      | none =>
          simp only [hfind, M_bind_apply, M_pure_apply,
            dbStep_noFault env h, instFold, instN, resolveInstitutionId,
            findInstitution_fst, findInstitution_snd]
          exact ih _ _ _

theorem articleLoop_noFault (env : Env) (h : env.failOps = [])
    (authorId rid adminId : Nat) :
    ∀ (as : List ReqArticle) (n : Nat) (s : St) (em : List EmailMsg),
      articleLoop env authorId rid adminId as ⟨n, s, em⟩ =
        .ok () ⟨artN as n, articleFold authorId rid adminId as s, em⟩ := by
  intro as
  induction as with
  | nil => intro n s em; rfl
  | cons a rest ih =>
      intro n s em
      simp only [articleLoop, M_bind_apply, dbStep_noFault env h,
        dbSoft_noFault env h, articleFold, artN]
      exact ih _ _ _

theorem journalLoop_noFault (env : Env) (h : env.failOps = [])
    (rid adminId : Nat) :
    ∀ (js : List ReqJournal) (n : Nat) (s : St) (em : List EmailMsg),
      journalLoop env rid adminId js ⟨n, s, em⟩ =
        .ok () ⟨jouN js n, journalFold rid adminId js s, em⟩ := by
  intro js
  induction js with
  | nil => intro n s em; rfl
  | cons j rest ih =>
      intro n s em
      simp only [journalLoop, M_bind_apply, dbStep_noFault env h,
        dbSoft_noFault env h, journalFold, jouN]
      exact ih _ _ _

theorem bookLoop_noFault (env : Env) (h : env.failOps = [])
    (authorId rid adminId : Nat) :
    ∀ (bs : List ReqBook) (n : Nat) (s : St) (em : List EmailMsg),
      bookLoop env authorId rid adminId bs ⟨n, s, em⟩ =
        .ok () ⟨bokN bs n, bookFold authorId rid adminId bs s, em⟩ := by
  intro bs
  induction bs with
  | nil => intro n s em; rfl
  | cons b rest ih =>
      intro n s em
      simp only [bookLoop, M_bind_apply, dbStep_noFault env h,
        dbSoft_noFault env h, bookFold, bokN]
      exact ih _ _ _

/-- On a fault-free environment without the stored procedure, an admin
approval of a fetchable pending request runs the whole manual sequence and
returns 200 with request id, author id and user id. -/
theorem approveAuthorRequest_noFault (env : Env) (caller : User)
    (rid : Nat) (notes : Option String) (s : St) (f : FetchedRequest)
    (hF : env.failOps = []) (hR : env.rpcOk = false)
    (hA : caller.role = sAdmin) (hf : fetchPending s rid = some f) :
    approveAuthorRequest env caller rid notes s =
      ⟨⟨200, true, none, .approval rid
          (some (approveManualResult f caller.id rid notes s).1)
          f.req.user_id⟩,
       (approveManualResult f caller.id rid notes s).2,
       if env.emailFails then []
       else [.approval f.userEmail f.req.first_name]⟩ := by
  unfold approveAuthorRequest runHandler approveBody approveFallback
  cases hE : env.emailFails with
  | false =>
      simp only [hA, beq_self_eq_true, if_true, M_bind_apply, M_pure_apply,
        dbCall_noFault env hF, dbStep_noFault env hF, rpcCall_off env hR,
        hf, Bool.false_eq_true, if_false,
        instLoop_noFault env hF, articleLoop_noFault env hF,
        journalLoop_noFault env hF, bookLoop_noFault env hF,
        emailOp, hE, approveManualResult, List.nil_append]
  | true =>
      simp only [hA, beq_self_eq_true, if_true, M_bind_apply, M_pure_apply,
        dbCall_noFault env hF, dbStep_noFault env hF, rpcCall_off env hR,
        hf, Bool.false_eq_true, if_false,
        instLoop_noFault env hF, articleLoop_noFault env hF,
        journalLoop_noFault env hF, bookLoop_noFault env hF,
        emailOp, hE, approveManualResult]

end QLBB

namespace QLBB

/-! File-retarget helpers. -/

theorem retargetFun_not_claim (rid : Nat) (ctype : String) (cid : Nat)
    (h : (ctype == sAuthorRequest) = false) (fl : FileRec) :
    fileClaimMatches (retargetFun rid ctype cid fl) rid = false := by
  unfold retargetFun
  split
  · simp [fileClaimMatches, h]
  · rename_i hm
    simp only [Bool.not_eq_true] at hm
    exact hm

theorem retarget_map_noClaim (rid : Nat) (ctype : String) (cid : Nat)
    (h : (ctype == sAuthorRequest) = false) (l : List FileRec) :
    noClaimFiles (l.map (retargetFun rid ctype cid)) rid = true := by
  unfold noClaimFiles
  rw [List.all_map]
  rw [List.all_eq_true]
  intro fl _
  simp [retargetFun_not_claim rid ctype cid h fl]

theorem retarget_map_id (rid : Nat) (ctype : String) (cid : Nat)
    (l : List FileRec) (h : noClaimFiles l rid = true) :
    l.map (retargetFun rid ctype cid) = l := by
  unfold noClaimFiles at h
  rw [List.all_eq_true] at h
  induction l with
  | nil => rfl
  | cons fl rest ih =>
      have hfl := h fl (List.mem_cons_self fl rest)
      simp only [Bool.not_eq_true'] at hfl
      rw [List.map_cons, ih (fun x hx => h x (List.mem_cons_of_mem fl hx))]
      simp [retargetFun, hfl]

theorem sArticle_not_request : (sArticle == sAuthorRequest) = false := by
  decide

theorem sJournal_not_request : (sJournal == sAuthorRequest) = false := by
  decide

theorem sBook_not_request : (sBook == sAuthorRequest) = false := by
  decide

/-! mkArticles facts. -/

theorem mkArticles_length (adminId : Nat) :
    ∀ (n : Nat) (as : List ReqArticle),
      (mkArticles adminId n as).length = as.length := by
  intro n as
  induction as generalizing n with
  | nil => rfl
  | cons a rest ih => simp [mkArticles, ih]

theorem mkArticles_titles (adminId : Nat) :
    ∀ (n : Nat) (as : List ReqArticle),
      (mkArticles adminId n as).map (fun a => a.title) =
        as.map (fun a => a.title) := by
  intro n as
  induction as generalizing n with
  | nil => rfl
  | cons a rest ih => simp [mkArticles, ih]

/-! Field behaviour of the pure article fold. -/

theorem articleFold_fields (authorId rid adminId : Nat) :
    ∀ (as : List ReqArticle) (s : St),
      (articleFold authorId rid adminId as s).users = s.users ∧
      (articleFold authorId rid adminId as s).authors = s.authors ∧
      (articleFold authorId rid adminId as s).institutions =
        s.institutions ∧
      (articleFold authorId rid adminId as s).journals = s.journals ∧
      (articleFold authorId rid adminId as s).books = s.books ∧
      (articleFold authorId rid adminId as s).author_books =
        s.author_books ∧
      (articleFold authorId rid adminId as s).author_requests =
        s.author_requests ∧
      (articleFold authorId rid adminId as s).articles =
        s.articles ++ mkArticles adminId s.nextId as ∧
      (articleFold authorId rid adminId as s).author_articles =
        s.author_articles ++
          (mkArticles adminId s.nextId as).map (fun a => (authorId, a.id)) := by
  intro as
  induction as with
  | nil => intro s; simp [articleFold, mkArticles]
  | cons a rest ih =>
      intro s
      obtain ⟨h1, h2, h3, h4, h5, h6, h7, h8, h9⟩ := ih
        (retargetRequestFiles
          (insertAuthorArticle (insertArticleRow s a adminId).2 authorId
            (insertArticleRow s a adminId).1.id).2
          rid sArticle (insertArticleRow s a adminId).1.id).2
      simp only [articleFold] at h1 h2 h3 h4 h5 h6 h7 h8 h9 ⊢
      simp only [insertArticleRow, insertAuthorArticle,
        retargetRequestFiles, mkArticles] at h1 h2 h3 h4 h5 h6 h7 h8 h9 ⊢
      refine ⟨h1, h2, h3, h4, h5, h6, h7, ?_, ?_⟩
      · rw [h8]
        simp [mkArticles, List.append_assoc]
      · rw [h9]
        simp [mkArticles, List.append_assoc]

theorem articleFold_files_noClaim (authorId rid adminId : Nat) :
    ∀ (as : List ReqArticle) (s : St),
      noClaimFiles s.files rid = true →
      (articleFold authorId rid adminId as s).files = s.files := by
  intro as
  induction as with
  | nil => intro s _; rfl
  | cons a rest ih =>
      intro s h
      have hid := retarget_map_id rid sArticle s.nextId s.files h
      simp only [articleFold, insertArticleRow, insertAuthorArticle,
        retargetRequestFiles]
      rw [ih]
      · exact hid
      · exact retarget_map_noClaim rid sArticle s.nextId
          sArticle_not_request s.files

theorem articleFold_files (authorId rid adminId : Nat) :
    ∀ (as : List ReqArticle) (s : St), as ≠ [] →
      (articleFold authorId rid adminId as s).files =
        s.files.map (retargetFun rid sArticle s.nextId) := by
  intro as
  cases as with
  | nil => intro s h; exact absurd rfl h
  | cons a rest =>
      intro s _
      simp only [articleFold, insertArticleRow, insertAuthorArticle,
        retargetRequestFiles]
      exact articleFold_files_noClaim authorId rid adminId rest _
        (retarget_map_noClaim rid sArticle s.nextId
          sArticle_not_request s.files)

end QLBB

namespace QLBB

/-! Field behaviour of the journal and book folds. -/

theorem journalFold_fields (rid adminId : Nat) :
    ∀ (js : List ReqJournal) (s : St),
      (journalFold rid adminId js s).users = s.users ∧
      (journalFold rid adminId js s).authors = s.authors ∧
      (journalFold rid adminId js s).institutions = s.institutions ∧
      (journalFold rid adminId js s).articles = s.articles ∧
      (journalFold rid adminId js s).author_articles = s.author_articles ∧
      (journalFold rid adminId js s).books = s.books ∧
      (journalFold rid adminId js s).author_books = s.author_books ∧
      (journalFold rid adminId js s).author_requests = s.author_requests := by
  intro js
  induction js with
  | nil => intro s; simp [journalFold]
  | cons j rest ih =>
      intro s
      obtain ⟨h1, h2, h3, h4, h5, h6, h7, h8⟩ := ih
        (retargetRequestFiles (insertJournalRow s j adminId).2 rid sJournal
          (insertJournalRow s j adminId).1.id).2
      simp only [journalFold, insertJournalRow, retargetRequestFiles]
        at h1 h2 h3 h4 h5 h6 h7 h8 ⊢
      exact ⟨h1, h2, h3, h4, h5, h6, h7, h8⟩

theorem journalFold_files_noClaim (rid adminId : Nat) :
    ∀ (js : List ReqJournal) (s : St),
      noClaimFiles s.files rid = true →
      (journalFold rid adminId js s).files = s.files := by
  intro js
  induction js with
  | nil => intro s _; rfl
  | cons j rest ih =>
      intro s h
      have hid := retarget_map_id rid sJournal s.nextId s.files h
      simp only [journalFold, insertJournalRow, retargetRequestFiles]
      rw [ih]
      · exact hid
      · exact retarget_map_noClaim rid sJournal s.nextId
          sJournal_not_request s.files

theorem bookFold_fields (authorId rid adminId : Nat) :
    ∀ (bs : List ReqBook) (s : St),
      (bookFold authorId rid adminId bs s).users = s.users ∧
      (bookFold authorId rid adminId bs s).authors = s.authors ∧
      (bookFold authorId rid adminId bs s).institutions = s.institutions ∧
      (bookFold authorId rid adminId bs s).articles = s.articles ∧
      (bookFold authorId rid adminId bs s).author_articles =
        s.author_articles ∧
      (bookFold authorId rid adminId bs s).journals = s.journals ∧
      (bookFold authorId rid adminId bs s).author_requests =
        s.author_requests := by
  intro bs
  induction bs with
  | nil => intro s; simp [bookFold]
  | cons b rest ih =>
      intro s
      obtain ⟨h1, h2, h3, h4, h5, h6, h7⟩ := ih
        (retargetRequestFiles
          (insertAuthorBook (insertBookRow s b adminId).2 authorId
            (insertBookRow s b adminId).1.id).2
          rid sBook (insertBookRow s b adminId).1.id).2
      simp only [bookFold, insertBookRow, insertAuthorBook,
        retargetRequestFiles] at h1 h2 h3 h4 h5 h6 h7 ⊢
      exact ⟨h1, h2, h3, h4, h5, h6, h7⟩

theorem bookFold_files_noClaim (authorId rid adminId : Nat) :
    ∀ (bs : List ReqBook) (s : St),
      noClaimFiles s.files rid = true →
      (bookFold authorId rid adminId bs s).files = s.files := by
  intro bs
  induction bs with
  | nil => intro s _; rfl
  | cons b rest ih =>
      intro s h
      have hid := retarget_map_id rid sBook s.nextId s.files h
      simp only [bookFold, insertBookRow, insertAuthorBook,
        retargetRequestFiles]
      rw [ih]
      · exact hid
      · exact retarget_map_noClaim rid sBook s.nextId
          sBook_not_request s.files

/-! Field behaviour of the institution fold. -/

theorem instFold_fields (authorId adminId : Nat) :
    ∀ (is : List ReqInstitution) (s : St),
      (instFold authorId adminId is s).users = s.users ∧
      (instFold authorId adminId is s).articles = s.articles ∧
      (instFold authorId adminId is s).author_articles =
        s.author_articles ∧
      (instFold authorId adminId is s).journals = s.journals ∧
      (instFold authorId adminId is s).books = s.books ∧
      (instFold authorId adminId is s).author_books = s.author_books ∧
      (instFold authorId adminId is s).author_requests =
        s.author_requests ∧
      (instFold authorId adminId is s).files = s.files := by
  intro is
  induction is with
  | nil => intro s; simp [instFold]
  | cons i rest ih =>
      intro s
      obtain ⟨h1, h2, h3, h4, h5, h6, h7, h8⟩ := ih
        (updateAuthorInstitution (resolveInstitutionId s i adminId).2
          authorId (resolveInstitutionId s i adminId).1).2
      simp only [instFold] at h1 h2 h3 h4 h5 h6 h7 h8 ⊢
      cases hfind : s.institutions.find?
          (fun x => instMatches x i.name i.country i.city) with
      | some ex =>
          simp only [resolveInstitutionId, findInstitution_fst, hfind,
            updateAuthorInstitution, insertInstitution]
            at h1 h2 h3 h4 h5 h6 h7 h8 ⊢
          exact ⟨h1, h2, h3, h4, h5, h6, h7, h8⟩
      | none =>
          simp only [resolveInstitutionId, findInstitution_fst, hfind,
            updateAuthorInstitution, insertInstitution]
            at h1 h2 h3 h4 h5 h6 h7 h8 ⊢
          exact ⟨h1, h2, h3, h4, h5, h6, h7, h8⟩

theorem resolveInstitutionId_authors (s : St) (i : ReqInstitution)
    (adminId : Nat) :
    (resolveInstitutionId s i adminId).2.authors = s.authors := by
  unfold resolveInstitutionId
  split
  · rfl
  · rfl

/-- The institution loop keeps an author row with the tracked id and
user_id in the table. -/
theorem instFold_authorMem (authorId adminId uid : Nat) :
    ∀ (is : List ReqInstitution) (s : St),
      (∃ row ∈ s.authors, row.id = authorId ∧ row.user_id = uid) →
      ∃ row ∈ (instFold authorId adminId is s).authors,
        row.id = authorId ∧ row.user_id = uid := by
  intro is
  induction is with
  | nil => intro s h; exact h
  | cons i rest ih =>
      intro s h
      obtain ⟨row, hmem, hid, huid⟩ := h
      refine ih _ ?_
      simp only [updateAuthorInstitution]
      rw [resolveInstitutionId_authors]
      refine ⟨if row.id == authorId then
          { row with institution_id := some (resolveInstitutionId s i adminId).1 }
        else row, List.mem_map_of_mem _ hmem, ?_⟩
      simp [hid]
      exact huid

end QLBB

namespace QLBB

theorem updateAuthorInstitution_mem (s : St) (authorId instId uid : Nat)
    (h : ∃ row ∈ s.authors, row.id = authorId ∧ row.user_id = uid) :
    ∃ row ∈ (updateAuthorInstitution s authorId instId).2.authors,
      row.id = authorId ∧ row.user_id = uid ∧
      row.institution_id = some instId := by
  obtain ⟨row, hmem, hid, huid⟩ := h
  simp only [updateAuthorInstitution]
  refine ⟨{ row with institution_id := some instId }, ?_, hid, huid, rfl⟩
  have h2 := List.mem_map_of_mem (fun a : Author =>
    if a.id == authorId then { a with institution_id := some instId }
    else a) hmem
  simpa [hid] using h2

theorem updateAuthorInstitution_mem_id (s : St) (authorId instId uid : Nat)
    (h : ∃ row ∈ s.authors, row.id = authorId ∧ row.user_id = uid) :
    ∃ row ∈ (updateAuthorInstitution s authorId instId).2.authors,
      row.id = authorId ∧ row.user_id = uid := by
  obtain ⟨row, hmem, h1, h2, _⟩ :=
    updateAuthorInstitution_mem s authorId instId uid h
  exact ⟨row, hmem, h1, h2⟩

/-- After processing a nonempty institution list, the tracked author row
points at an institution row carrying the key of the last claimed
institution. -/
theorem instFold_last (authorId adminId uid : Nat) :
    ∀ (is : List ReqInstitution) (s : St) (li : ReqInstitution),
      is.getLast? = some li →
      (∃ row ∈ s.authors, row.id = authorId ∧ row.user_id = uid) →
      ∃ row ∈ (instFold authorId adminId is s).authors,
        row.id = authorId ∧ row.user_id = uid ∧
        ∃ inst ∈ (instFold authorId adminId is s).institutions,
          row.institution_id = some inst.id ∧
          instMatches inst li.name li.country li.city = true := by
  intro is
  induction is with
  | nil => intro s li hlast; simp at hlast
  | cons i rest ih =>
      intro s li hlast hmem
      cases rest with
      | cons r rest2 =>
          rw [List.getLast?_cons_cons] at hlast
          simp only [instFold]
          refine ih _ li hlast ?_
          exact updateAuthorInstitution_mem_id
            (resolveInstitutionId s i adminId).2 authorId
            (resolveInstitutionId s i adminId).1 uid
            (by rw [resolveInstitutionId_authors]; exact hmem)
      | nil =>
          obtain rfl : i = li := by simpa using hlast
          simp only [instFold]
          obtain ⟨row, hrmem, hrid, hruid, hinst⟩ :=
            updateAuthorInstitution_mem
              (resolveInstitutionId s i adminId).2 authorId
              (resolveInstitutionId s i adminId).1 uid
              (by rw [resolveInstitutionId_authors]; exact hmem)
          refine ⟨row, hrmem, hrid, hruid, ?_⟩
          rw [show (updateAuthorInstitution
              (resolveInstitutionId s i adminId).2 authorId
              (resolveInstitutionId s i adminId).1).2.institutions =
              (resolveInstitutionId s i adminId).2.institutions from rfl]
          cases hfind : s.institutions.find?
              (fun x => instMatches x i.name i.country i.city) with
          | some ex =>
              refine ⟨ex, ?_, ?_, by simpa using List.find?_some hfind⟩
              · rw [show (resolveInstitutionId s i adminId).2.institutions
                    = s.institutions from by
                    simp [resolveInstitutionId, hfind]]
                exact List.mem_of_find?_eq_some hfind
              · rw [hinst]
                simp [resolveInstitutionId, hfind]
          | none =>
              refine ⟨⟨s.nextId, i.name, i.type, i.country, i.city,
                some adminId⟩, ?_, ?_, by simp [instMatches]⟩
              · rw [show (resolveInstitutionId s i adminId).2.institutions
                    = s.institutions ++ [⟨s.nextId, i.name, i.type,
                      i.country, i.city, some adminId⟩] from by
                    simp [resolveInstitutionId, hfind, insertInstitution]]
                simp
              · rw [hinst]
                simp [resolveInstitutionId, hfind, insertInstitution]

theorem resolve_count (s : St) (i : ReqInstitution) (adminId : Nat)
    (nm co ci : String) :
    countInstKey (resolveInstitutionId s i adminId).2 nm co ci ≤
      max (countInstKey s nm co ci) 1 := by
  unfold resolveInstitutionId
  cases hfind : (findInstitution s i.name i.country i.city).1 with
  | some ex =>
      simp only [hfind]
      exact Nat.le_max_left _ _
  | none =>
      simp only [hfind]
      have hfind2 : s.institutions.find?
          (fun x => instMatches x i.name i.country i.city) = none := by
        simpa using hfind
      cases hm : instMatches
          ⟨s.nextId, i.name, i.type, i.country, i.city, some adminId⟩
          nm co ci with
      | false =>
          have : countInstKey (insertInstitution s i adminId).2 nm co ci =
              countInstKey s nm co ci := by
            simp [insertInstitution, countInstKey, List.filter_append,
              List.filter_cons, hm]
          rw [this]
          exact Nat.le_max_left _ _
      | true =>
          obtain ⟨⟨hn, hco⟩, hci⟩ : (i.name = nm ∧ i.country = co) ∧
              i.city = ci := by
            simpa [instMatches, Bool.and_eq_true, beq_iff_eq] using hm
          subst hn; subst hco; subst hci
          have hzero : s.institutions.filter
              (fun x => instMatches x i.name i.country i.city) = [] :=
            List.filter_eq_nil_iff.mpr (fun x hx => by
              simpa using List.find?_eq_none.mp hfind2 x hx)
          have : countInstKey (insertInstitution s i adminId).2
              i.name i.country i.city = 1 := by
            simp [insertInstitution, countInstKey, List.filter_append,
              List.filter_cons, hm, hzero]
          rw [this]
          exact Nat.le_max_right _ _

/-- Approval inserts an institution row for a key only when no row with
that key exists: the count for any key never exceeds max(previous, 1)
across the institution loop. -/
theorem instFold_count (authorId adminId : Nat) (nm co ci : String) :
    ∀ (is : List ReqInstitution) (s : St),
      countInstKey (instFold authorId adminId is s) nm co ci ≤
        max (countInstKey s nm co ci) 1 := by
  intro is
  induction is with
  | nil =>
      intro s
      exact Nat.le_max_left _ _
  | cons i rest ih =>
      intro s
      simp only [instFold]
      refine le_trans (ih _) ?_
      rw [show countInstKey (updateAuthorInstitution
          (resolveInstitutionId s i adminId).2 authorId
          (resolveInstitutionId s i adminId).1).2 nm co ci =
          countInstKey (resolveInstitutionId s i adminId).2 nm co ci
          from rfl]
      exact Nat.max_le.mpr ⟨resolve_count s i adminId nm co ci,
        Nat.le_max_right _ _⟩

theorem upsertAuthor_mem (s : St) (uid : Nat) (fn ln t e : String) :
    ∃ row ∈ (upsertAuthor s uid fn ln t e).2.authors,
      row.id = (upsertAuthor s uid fn ln t e).1.id ∧
      row.user_id = uid := by
  unfold upsertAuthor
  cases hfind : s.authors.find? (fun a => a.user_id == uid) with
  | some a =>
      simp only [hfind]
      have hpred := List.find?_some hfind
      have huid : a.user_id = uid := by simpa using hpred
      refine ⟨{ a with first_name := fn, last_name := ln, academic_title := t, email := e, institution_id := none }, ?_, rfl, huid⟩
      have h2 := List.mem_map_of_mem (fun x : Author =>
        if x.user_id == uid then
          { x with first_name := fn, last_name := ln, academic_title := t, email := e, institution_id := none }
        else x) (List.mem_of_find?_eq_some hfind)
      simpa [huid] using h2
  | none =>
      simp only [hfind]
      exact ⟨⟨s.nextId, uid, fn, ln, t, e, none⟩, by simp, rfl, rfl⟩

theorem roleMap_find (uid : Nat) (role : String) :
    ∀ l : List User, (l.find? (fun u => u.id == uid)).isSome = true →
      ((l.map (fun u => if u.id == uid then { u with role := role }
          else u)).find? (fun u => u.id == uid)).map (fun u => u.role) =
        some role := by
  intro l
  induction l with
  | nil => intro h; simp at h
  | cons u rest ih =>
      intro h
      cases hc : (u.id == uid) with
      | true =>
          have hu : u.id = uid := by simpa using hc
          simp [List.find?_cons, hu]
      | false =>
          simp only [List.find?_cons, hc] at h
          have hskip : ((if u.id == uid then { u with role := role }
              else u).id == uid) = false := by simp [hc]
          simp only [List.map_cons, List.find?_cons, hskip]
          simpa [hc] using ih (by simpa [hc] using h)

theorem updateUserRole_role (s : St) (uid : Nat) (role : String)
    (h : (userRole s uid).isSome = true) :
    userRole (updateUserRole s uid role).2 uid = some role := by
  unfold userRole at h ⊢
  unfold updateUserRole
  exact roleMap_find uid role s.users (by simpa using h)

theorem statusMap_find (rid : Nat) (st2 : String) (notes : Option String)
    (adminId : Nat) (now : Nat) :
    ∀ l : List AuthorRequest,
      (l.find? (fun r => r.id == rid)).isSome = true →
      (((l.map (fun r => if r.id == rid then
          { r with status := st2,
                   admin_notes := match notes with
                     | none => r.admin_notes
                     | some v => some v,
                   reviewed_by := some adminId, updated_at := now }
          else r)).find? (fun r => r.id == rid)).map
            (fun r => r.status) = some st2) ∧
      (((l.map (fun r => if r.id == rid then
          { r with status := st2,
                   admin_notes := match notes with
                     | none => r.admin_notes
                     | some v => some v,
                   reviewed_by := some adminId, updated_at := now }
          else r)).find? (fun r => r.id == rid)).map
            (fun r => r.reviewed_by) = some (some adminId)) := by
  intro l
  induction l with
  | nil => intro h; simp at h
  | cons r rest ih =>
      intro h
      cases hc : (r.id == rid) with
      | true =>
          have hr : r.id = rid := by simpa using hc
          constructor
          · simp [List.find?_cons, hr]
          · simp [List.find?_cons, hr]
      | false =>
          simp only [List.find?_cons, hc] at h
          have hrec := ih (by simpa [hc] using h)
          have hskip : ((if r.id == rid then
              { r with status := st2,
                       admin_notes := match notes with
                         | none => r.admin_notes
                         | some v => some v,
                       reviewed_by := some adminId, updated_at := now }
              else r).id == rid) = false := by
            simp [hc]
          constructor
          · simp only [List.map_cons, List.find?_cons, hskip]
            simpa [hc] using hrec.1
          · simp only [List.map_cons, List.find?_cons, hskip]
            simpa [hc] using hrec.2

theorem updateRequestApproved_post (s : St) (rid : Nat)
    (notes : Option String) (adminId : Nat)
    (h : (reqStatus s rid).isSome = true) :
    reqStatus (updateRequestApproved s rid notes adminId).2 rid =
      some sApproved ∧
    reqReviewedBy (updateRequestApproved s rid notes adminId).2 rid =
      some (some adminId) := by
  unfold reqStatus at h
  unfold reqStatus reqReviewedBy updateRequestApproved
  exact statusMap_find rid sApproved notes adminId s.now s.author_requests
    (by simpa using h)

theorem fetchPending_inv (s : St) (rid : Nat) (f : FetchedRequest)
    (h : fetchPending s rid = some f) :
    f.req ∈ s.author_requests ∧ f.req.id = rid ∧
    f.req.status = sPending ∧
    f.arts = s.author_request_articles.filter
      (fun a => a.author_request_id == f.req.id) ∧
    f.insts = s.author_request_institutions.filter
      (fun i => i.author_request_id == f.req.id) := by
  unfold fetchPending at h
  cases hfind : s.author_requests.find?
      (fun r => r.id == rid && r.status == sPending) with
  | none => rw [hfind] at h; simp at h
  | some r =>
      rw [hfind] at h
      simp at h
      have hpred := List.find?_some hfind
      simp only [Bool.and_eq_true, beq_iff_eq] at hpred
      subst h
      exact ⟨List.mem_of_find?_eq_some hfind, hpred.1, hpred.2, rfl, rfl⟩

theorem fetchPending_status_isSome (s : St) (rid : Nat)
    (f : FetchedRequest) (h : fetchPending s rid = some f) :
    (reqStatus s rid).isSome = true := by
  obtain ⟨hmem, hid, _, _, _⟩ := fetchPending_inv s rid f h
  unfold reqStatus
  cases hfind : s.author_requests.find? (fun r => r.id == rid) with
  | none =>
      exact absurd (show (f.req.id == rid) = true by simp [hid])
        (by simpa using List.find?_eq_none.mp hfind f.req hmem)
  | some r => rfl

end QLBB

namespace QLBB

/-! Small frame lemmas for single operations. -/

theorem upsertAuthor_users (s : St) (uid : Nat) (fn ln t e : String) :
    (upsertAuthor s uid fn ln t e).2.users = s.users := by
  unfold upsertAuthor
  split
  · rfl
  · rfl

theorem upsertAuthor_author_requests (s : St) (uid : Nat)
    (fn ln t e : String) :
    (upsertAuthor s uid fn ln t e).2.author_requests =
      s.author_requests := by
  unfold upsertAuthor
  split
  · rfl
  · rfl

theorem upsertAuthor_institutions (s : St) (uid : Nat) (fn ln t e : String) :
    (upsertAuthor s uid fn ln t e).2.institutions = s.institutions := by
  unfold upsertAuthor
  split
  · rfl
  · rfl

theorem upsertAuthor_articles (s : St) (uid : Nat) (fn ln t e : String) :
    (upsertAuthor s uid fn ln t e).2.articles = s.articles := by
  unfold upsertAuthor
  split
  · rfl
  · rfl

theorem upsertAuthor_author_articles (s : St) (uid : Nat)
    (fn ln t e : String) :
    (upsertAuthor s uid fn ln t e).2.author_articles =
      s.author_articles := by
  unfold upsertAuthor
  split
  · rfl
  · rfl

theorem upsertAuthor_files (s : St) (uid : Nat) (fn ln t e : String) :
    (upsertAuthor s uid fn ln t e).2.files = s.files := by
  unfold upsertAuthor
  split
  · rfl
  · rfl

theorem userRole_eq_of (s1 s2 : St) (uid : Nat)
    (h : s1.users = s2.users) : userRole s1 uid = userRole s2 uid := by
  unfold userRole
  rw [h]

theorem reqStatus_eq_of (s1 s2 : St) (rid : Nat)
    (h : s1.author_requests = s2.author_requests) :
    reqStatus s1 rid = reqStatus s2 rid := by
  unfold reqStatus
  rw [h]

theorem reqReviewedBy_eq_of (s1 s2 : St) (rid : Nat)
    (h : s1.author_requests = s2.author_requests) :
    reqReviewedBy s1 rid = reqReviewedBy s2 rid := by
  unfold reqReviewedBy
  rw [h]

theorem countInstKey_eq_of (s1 s2 : St) (nm co ci : String)
    (h : s1.institutions = s2.institutions) :
    countInstKey s1 nm co ci = countInstKey s2 nm co ci := by
  unfold countInstKey
  rw [h]

/-! Early-exit behaviour of the approve handler. -/

theorem approve_not_admin (env : Env) (caller : User) (rid : Nat)
    (notes : Option String) (s : St)
    (h : (caller.role == sAdmin) = false) :
    approveAuthorRequest env caller rid notes s = ⟨resp403, s, []⟩ := by
  unfold approveAuthorRequest runHandler approveBody
  simp [h]

theorem approve_not_found (env : Env) (caller : User) (rid : Nat)
    (notes : Option String) (s : St)
    (h : fetchPending s rid = none) :
    approveAuthorRequest env caller rid notes s = ⟨resp404, s, []⟩ ∨
    approveAuthorRequest env caller rid notes s = ⟨resp403, s, []⟩ := by
  unfold approveAuthorRequest runHandler approveBody
  cases hA : (caller.role == sAdmin) with
  | false => right; simp [hA]
  | true =>
      left
      cases hc : env.failOps.contains (0 : Nat) with
      | true =>
          have hm : (0 : Nat) ∈ env.failOps := by simpa using hc
          simp [hA, dbCall, hc, hm, h]
      | false =>
          have hm : ¬ (0 : Nat) ∈ env.failOps := by simpa using hc
          simp [hA, dbCall, hc, hm, h]

/-! Composite facts about the pure manual-approval result. -/

theorem approveManualResult_users (f : FetchedRequest)
    (adminId rid : Nat) (notes : Option String) (s : St) :
    (approveManualResult f adminId rid notes s).2.users =
      (updateUserRole (upsertAuthor s f.req.user_id f.req.first_name
        f.req.last_name f.req.academic_title f.userEmail).2
        f.req.user_id sAuthor).2.users := by
  unfold approveManualResult
  rw [show ∀ y : St, (updateRequestApproved y rid notes adminId).2.users =
      y.users from fun y => rfl]
  rw [(bookFold_fields _ _ _ _ _).1, (journalFold_fields _ _ _ _).1,
    (articleFold_fields _ _ _ _ _).1, (instFold_fields _ _ _ _).1]

theorem approveManualResult_author_requests (f : FetchedRequest)
    (adminId rid : Nat) (notes : Option String) (s : St) :
    (approveManualResult f adminId rid notes s).2.author_requests =
      (updateRequestApproved (bookFold
        (upsertAuthor s f.req.user_id f.req.first_name f.req.last_name
          f.req.academic_title f.userEmail).1.id f.req.id adminId f.boks
        (journalFold f.req.id adminId f.jous
          (articleFold (upsertAuthor s f.req.user_id f.req.first_name
              f.req.last_name f.req.academic_title f.userEmail).1.id
            f.req.id adminId f.arts
            (instFold (upsertAuthor s f.req.user_id f.req.first_name
                f.req.last_name f.req.academic_title f.userEmail).1.id
              adminId f.insts
              (updateUserRole (upsertAuthor s f.req.user_id
                  f.req.first_name f.req.last_name f.req.academic_title
                  f.userEmail).2 f.req.user_id sAuthor).2))))
        rid notes adminId).2.author_requests := rfl

/-- reqStatus and reviewer of the final state of a fault-free manual
approval. -/
theorem approveManualResult_status (f : FetchedRequest)
    (adminId rid : Nat) (notes : Option String) (s : St)
    (h : (reqStatus s rid).isSome = true) :
    reqStatus (approveManualResult f adminId rid notes s).2 rid =
      some sApproved ∧
    reqReviewedBy (approveManualResult f adminId rid notes s).2 rid =
      some (some adminId) := by
  have hchain : (bookFold
      (upsertAuthor s f.req.user_id f.req.first_name f.req.last_name
        f.req.academic_title f.userEmail).1.id f.req.id adminId f.boks
      (journalFold f.req.id adminId f.jous
        (articleFold (upsertAuthor s f.req.user_id f.req.first_name
            f.req.last_name f.req.academic_title f.userEmail).1.id
          f.req.id adminId f.arts
          (instFold (upsertAuthor s f.req.user_id f.req.first_name
              f.req.last_name f.req.academic_title f.userEmail).1.id
            adminId f.insts
            (updateUserRole (upsertAuthor s f.req.user_id
                f.req.first_name f.req.last_name f.req.academic_title
                f.userEmail).2 f.req.user_id sAuthor).2)))).author_requests
      = s.author_requests := by
    rw [(bookFold_fields _ _ _ _ _).2.2.2.2.2.2,
      (journalFold_fields _ _ _ _).2.2.2.2.2.2.2,
      (articleFold_fields _ _ _ _ _).2.2.2.2.2.2.1,
      (instFold_fields _ _ _ _).2.2.2.2.2.2.1]
    rw [show ∀ y : St, (updateUserRole y f.req.user_id sAuthor).2.author_requests = y.author_requests from fun y => rfl]
    exact upsertAuthor_author_requests s f.req.user_id f.req.first_name
      f.req.last_name f.req.academic_title f.userEmail
  have hsome : (reqStatus (bookFold
      (upsertAuthor s f.req.user_id f.req.first_name f.req.last_name
        f.req.academic_title f.userEmail).1.id f.req.id adminId f.boks
      (journalFold f.req.id adminId f.jous
        (articleFold (upsertAuthor s f.req.user_id f.req.first_name
            f.req.last_name f.req.academic_title f.userEmail).1.id
          f.req.id adminId f.arts
          (instFold (upsertAuthor s f.req.user_id f.req.first_name
              f.req.last_name f.req.academic_title f.userEmail).1.id
            adminId f.insts
            (updateUserRole (upsertAuthor s f.req.user_id
                f.req.first_name f.req.last_name f.req.academic_title
                f.userEmail).2 f.req.user_id sAuthor).2)))) rid).isSome
      = true := by
    rw [reqStatus_eq_of _ s rid hchain]
    exact h
  constructor
  · rw [show reqStatus (approveManualResult f adminId rid notes s).2 rid =
        reqStatus (updateRequestApproved _ rid notes adminId).2 rid
        from rfl]
    exact (updateRequestApproved_post _ rid notes adminId hsome).1
  · rw [show reqReviewedBy (approveManualResult f adminId rid notes s).2 rid
        = reqReviewedBy (updateRequestApproved _ rid notes adminId).2 rid
        from rfl]
    exact (updateRequestApproved_post _ rid notes adminId hsome).2

end QLBB

namespace QLBB

theorem approve_not_found_admin (env : Env) (caller : User) (rid : Nat)
    (notes : Option String) (s : St)
    (hA : (caller.role == sAdmin) = true)
    (hfp : fetchPending s rid = none) :
    approveAuthorRequest env caller rid notes s = ⟨resp404, s, []⟩ := by
  unfold approveAuthorRequest runHandler approveBody
  cases hc : env.failOps.contains (0 : Nat) with
  | true =>
      have hm : (0 : Nat) ∈ env.failOps := by simpa using hc
      simp [hA, dbCall, hc, hm, hfp]
  | false =>
      have hm : ¬ (0 : Nat) ∈ env.failOps := by simpa using hc
      simp [hA, dbCall, hc, hm, hfp]

theorem reject_not_found_admin (env : Env) (caller : User) (rid : Nat)
    (notes : Option String) (s : St)
    (hA : (caller.role == sAdmin) = true)
    (hnotes : (notes == none || notes == some "") = false)
    (hfpb : fetchPendingBasic s rid = none) :
    rejectAuthorRequest env caller rid notes s = ⟨resp404, s, []⟩ := by
  unfold rejectAuthorRequest runHandler rejectBody
  cases hc : env.failOps.contains (0 : Nat) with
  | true =>
      have hm : (0 : Nat) ∈ env.failOps := by simpa using hc
      simp [hA, hnotes, dbCall, hc, hm, hfpb]
  | false =>
      have hm : ¬ (0 : Nat) ∈ env.failOps := by simpa using hc
      simp [hA, hnotes, dbCall, hc, hm, hfpb]

/-- C3: a request that is not pending (already approved, already rejected,
or nonexistent) can be neither approved nor rejected: both operations
return 404 NotFound and leave the whole database state unchanged, and no
email is sent.  In particular a second approve or a second reject of the
same request fails, since the first one moved the status out of pending. -/
theorem terminal_request_404 (env : Env) (caller : User) (rid : Nat)
    (notes : Option String) (s : St)
    (hA : caller.role = sAdmin)
    (hterm : ∀ r ∈ s.author_requests, r.id = rid → r.status ≠ sPending)
    (hnotes : (notes == none || notes == some "") = false) :
    approveAuthorRequest env caller rid notes s = ⟨resp404, s, []⟩ ∧
    rejectAuthorRequest env caller rid notes s = ⟨resp404, s, []⟩ := by
  have hfind : s.author_requests.find?
      (fun r => r.id == rid && r.status == sPending) = none := by
    rw [List.find?_eq_none]
    intro r hr hp
    simp only [Bool.and_eq_true, beq_iff_eq] at hp
    exact hterm r hr hp.1 hp.2
  have hfp : fetchPending s rid = none := by
    unfold fetchPending
    rw [hfind]
    rfl
  have hfpb : fetchPendingBasic s rid = none := by
    unfold fetchPendingBasic
    rw [hfind]
    rfl
  have hA2 : (caller.role == sAdmin) = true := by simp [hA]
  exact ⟨approve_not_found_admin env caller rid notes s hA2 hfp,
    reject_not_found_admin env caller rid notes s hA2 hnotes hfpb⟩

theorem terminal_request_404_witness :
    approveAuthorRequest envNF adminU 10 (some ("no")) stApproved =
      ⟨resp404, stApproved, []⟩ ∧
    rejectAuthorRequest envNF adminU 10 (some ("no")) stApproved =
      ⟨resp404, stApproved, []⟩ :=
  terminal_request_404 envNF adminU 10 (some ("no")) stApproved rfl
    (by decide) (by decide)

/-- C7: rejecting without a reason (admin_notes absent or empty, both
falsy) fails with ValidationError before any operation touches the store;
rejecting a pending request with a reason updates exactly the request row
(status, admin_notes, reviewed_by, updated_at) and leaves every other
table — users, authors, institutions, articles, journals, books,
association tables, files — untouched. -/
theorem reject_validation_and_frame :
    (∀ (env : Env) (caller : User) (rid : Nat) (notes : Option String)
      (s : St), (notes == none || notes == some "") = true →
      rejectAuthorRequest env caller rid notes s = ⟨resp400v, s, []⟩) ∧
    (∀ (env : Env) (caller : User) (rid : Nat) (v : String) (s : St)
      (rq : AuthorRequest × String),
      caller.role = sAdmin → env.failOps = [] → v ≠ "" →
      fetchPendingBasic s rid = some rq →
      rejectAuthorRequest env caller rid (some v) s =
        ⟨⟨200, true, none, .rejection rid⟩,
         { s with author_requests := s.author_requests.map (fun r =>
             if r.id == rid then
               { r with status := sRejected, admin_notes := some v,
                        reviewed_by := some caller.id,
                        updated_at := s.now }
             else r) },
         if env.emailFails then []
         else [.rejection rq.2 rq.1.first_name v]⟩) := by
  constructor
  · intro env caller rid notes s h
    unfold rejectAuthorRequest runHandler rejectBody
    simp [h]
  · intro env caller rid v s rq hA hF hv hfetch
    have hnotes : (((some v : Option String) == none) ||
        ((some v : Option String) == some "")) = false := by
      have : (v == "") = false := by simpa using hv
      simp [this]
    unfold rejectAuthorRequest runHandler rejectBody
    cases hE : env.emailFails with
    | false =>
        simp only [hnotes, Bool.false_eq_true, if_false, hA,
          beq_self_eq_true, if_true, M_bind_apply, M_pure_apply,
          dbCall_noFault env hF, dbStep_noFault env hF, hfetch, emailOp,
          hE, updateRequestRejected, List.nil_append, Option.getD_some]
    | true =>
        simp only [hnotes, Bool.false_eq_true, if_false, hA,
          beq_self_eq_true, if_true, M_bind_apply, M_pure_apply,
          dbCall_noFault env hF, dbStep_noFault env hF, hfetch, emailOp,
          hE, updateRequestRejected]

theorem reject_validation_and_frame_witness :
    rejectAuthorRequest envNF adminU 10 (some ("bad")) st0 =
      ⟨⟨200, true, none, .rejection 10⟩,
       { st0 with author_requests := st0.author_requests.map (fun r =>
           if r.id == 10 then
             { r with status := sRejected, admin_notes := some ("bad"),
                      reviewed_by := some adminU.id,
                      updated_at := st0.now }
           else r) },
       if envNF.emailFails then []
       else [.rejection "ada@x" "Ada" "bad"]⟩ :=
  reject_validation_and_frame.2 envNF adminU 10 "bad" st0
    (req10, "ada@x") rfl rfl (by decide) (by decide)

/-- Shared helper: the richer submission handler returns ConflictError
and leaves the state untouched when the submitter already has a pending
or approved request. -/
theorem createAuthorRequest_conflict (env : Env) (caller : User)
    (p : CreatePayload) (s : St)
    (hfn : p.first_name ≠ "") (hln : p.last_name ≠ "")
    (h0 : env.failOps.contains 0 = false)
    (hdup : ∃ r ∈ s.author_requests, r.user_id = caller.id ∧
      (r.status = sPending ∨ r.status = sApproved)) :
    createAuthorRequest env caller p s = ⟨resp400c, s, []⟩ := by
  obtain ⟨r, hr, hru, hrs⟩ := hdup
  have h1 : (p.first_name == "") = false := by simpa using hfn
  have h2 : (p.last_name == "") = false := by simpa using hln
  have hprd : (r.user_id == caller.id &&
      (r.status == sPending || r.status == sApproved)) = true := by
    cases hrs with
    | inl h => simp [hru, h]
    | inr h => simp [hru, h]
  have hmemf : r ∈ checkDuplicateRequests s caller.id :=
    List.mem_filter.mpr ⟨hr, hprd⟩
  have hne : (checkDuplicateRequests s caller.id).isEmpty = false := by
    cases hE : checkDuplicateRequests s caller.id with
    | nil => rw [hE] at hmemf; simp at hmemf
    | cons a l => rfl
  have hm0 : ¬ (0 : Nat) ∈ env.failOps := by simpa using h0
  have hne2 : ¬ checkDuplicateRequests s caller.id = [] :=
    List.ne_nil_of_mem hmemf
  unfold createAuthorRequest runHandler createBody
  by_cases hpend : ∃ x ∈ checkDuplicateRequests s caller.id,
      x.status = sPending
  · simp [h1, h2, dbCall, h0, hm0, hne2, hpend]
  · have hpa : ∃ x ∈ checkDuplicateRequests s caller.id,
        x.status = sApproved := by
      cases hrs with
      | inl h => exact absurd ⟨r, hmemf, h⟩ hpend
      | inr h => exact ⟨r, hmemf, h⟩
    simp [h1, h2, dbCall, h0, hm0, hne2, hpend, hpa]

/-- C5 (amended): for every user who already has a request in status
pending or approved, submitting through createAuthorRequest (the richer
variant) fails with ConflictError before any row is inserted: the state is
returned unchanged.  The legacy submitAuthorRequest endpoint does not
satisfy the claim as stated: it only rejects when the most recent request
is pending, so a user with an approved request passes its check (see the
counterexample). -/
theorem submit_duplicate_conflict (env : Env) (caller : User)
    (p : CreatePayload) (s : St)
    (hfn : p.first_name ≠ "") (hln : p.last_name ≠ "")
    (h0 : env.failOps.contains 0 = false)
    (hdup : ∃ r ∈ s.author_requests, r.user_id = caller.id ∧
      (r.status = sPending ∨ r.status = sApproved)) :
    createAuthorRequest env caller p s = ⟨resp400c, s, []⟩ :=
  createAuthorRequest_conflict env caller p s hfn hln h0 hdup

theorem submit_duplicate_conflict_witness :
    createAuthorRequest envNF reqU pC stApproved =
      ⟨resp400c, stApproved, []⟩ :=
  submit_duplicate_conflict envNF reqU pC stApproved (by decide)
    (by decide) rfl (by decide)

/-- C5 counterexample: the legacy submit endpoint accepts a new request
from a user whose existing request is approved — 201 Created, a second
author_requests row is inserted, no ConflictError. -/
theorem submit_duplicate_conflict_counterexample :
    stApproved.author_requests.map (fun r => (r.user_id, r.status)) =
      [(2, sApproved)] ∧
    (Legacy.submitAuthorRequest envNF reqU pL stApproved).resp.status =
      201 ∧
    (Legacy.submitAuthorRequest envNF reqU pL stApproved).resp.error =
      none ∧
    (Legacy.submitAuthorRequest envNF reqU pL
        stApproved).s.author_requests.map
      (fun r => (r.user_id, r.status)) =
      [(2, sApproved), (2, sPending)] := by
  refine ⟨by decide, by decide, by decide, by decide⟩

end QLBB

namespace QLBB

theorem approveManualResult_authors (f : FetchedRequest)
    (adminId rid : Nat) (notes : Option String) (s : St) :
    (approveManualResult f adminId rid notes s).2.authors =
      (instFold (upsertAuthor s f.req.user_id f.req.first_name
          f.req.last_name f.req.academic_title f.userEmail).1.id adminId
        f.insts
        (updateUserRole (upsertAuthor s f.req.user_id f.req.first_name
            f.req.last_name f.req.academic_title f.userEmail).2
          f.req.user_id sAuthor).2).authors := by
  unfold approveManualResult
  rw [show ∀ y : St, (updateRequestApproved y rid notes adminId).2.authors
      = y.authors from fun y => rfl]
  rw [(bookFold_fields _ _ _ _ _).2.1, (journalFold_fields _ _ _ _).2.1,
    (articleFold_fields _ _ _ _ _).2.1]

theorem approveManualResult_institutions (f : FetchedRequest)
    (adminId rid : Nat) (notes : Option String) (s : St) :
    (approveManualResult f adminId rid notes s).2.institutions =
      (instFold (upsertAuthor s f.req.user_id f.req.first_name
          f.req.last_name f.req.academic_title f.userEmail).1.id adminId
        f.insts
        (updateUserRole (upsertAuthor s f.req.user_id f.req.first_name
            f.req.last_name f.req.academic_title f.userEmail).2
          f.req.user_id sAuthor).2).institutions := by
  unfold approveManualResult
  rw [show ∀ y : St, (updateRequestApproved y rid notes
      adminId).2.institutions = y.institutions from fun y => rfl]
  rw [(bookFold_fields _ _ _ _ _).2.2.1, (journalFold_fields _ _ _ _).2.2.1,
    (articleFold_fields _ _ _ _ _).2.2.1]

/-- C4 (amended): a fault-free fallback approval of a fetchable pending
request succeeds with 200, promotes the submitter's role to author,
guarantees an authors row with the submitter's user_id, marks the request
approved with reviewed_by = the approving admin, and returns data carrying
request_id, author_id and user_id.  The amendment: when the stored
procedure fast path succeeds instead, the database outcome is delegated to
the procedure and the success response carries only request_id and user_id
with no author_id (see the counterexample), so the response-shape part of
the claim holds only on the fallback path. -/
theorem approve_success_postconditions (env : Env) (caller : User)
    (rid : Nat) (notes : Option String) (s : St) (f : FetchedRequest)
    (hF : env.failOps = []) (hR : env.rpcOk = false)
    (hA : caller.role = sAdmin) (hf : fetchPending s rid = some f)
    (hUser : (userRole s f.req.user_id).isSome = true) :
    (approveAuthorRequest env caller rid notes s).resp.status = 200 ∧
    (∃ aid : Nat, (approveAuthorRequest env caller rid notes s).resp.data =
      .approval rid (some aid) f.req.user_id) ∧
    userRole (approveAuthorRequest env caller rid notes s).s
      f.req.user_id = some sAuthor ∧
    hasAuthorFor (approveAuthorRequest env caller rid notes s).s
      f.req.user_id = true ∧
    reqStatus (approveAuthorRequest env caller rid notes s).s rid =
      some sApproved ∧
    reqReviewedBy (approveAuthorRequest env caller rid notes s).s rid =
      some (some caller.id) := by
  have hpost := approveManualResult_status f caller.id rid notes s
    (fetchPending_status_isSome s rid f hf)
  rw [approveAuthorRequest_noFault env caller rid notes s f hF hR hA hf]
  refine ⟨rfl, ⟨(approveManualResult f caller.id rid notes s).1, rfl⟩,
    ?_, ?_, hpost.1, hpost.2⟩
  · rw [userRole_eq_of _ _ _
      (approveManualResult_users f caller.id rid notes s)]
    apply updateUserRole_role
    rw [userRole_eq_of _ s _ (upsertAuthor_users s f.req.user_id
      f.req.first_name f.req.last_name f.req.academic_title f.userEmail)]
    exact hUser
  · show ((approveManualResult f caller.id rid notes s).2.authors.any
      (fun a => a.user_id == f.req.user_id)) = true
    rw [approveManualResult_authors f caller.id rid notes s]
    obtain ⟨row, hmem, _, huid⟩ := instFold_authorMem
      (upsertAuthor s f.req.user_id f.req.first_name f.req.last_name
        f.req.academic_title f.userEmail).1.id caller.id f.req.user_id
      f.insts
      (updateUserRole (upsertAuthor s f.req.user_id f.req.first_name
          f.req.last_name f.req.academic_title f.userEmail).2
        f.req.user_id sAuthor).2
      (upsertAuthor_mem s f.req.user_id f.req.first_name f.req.last_name
        f.req.academic_title f.userEmail)
    exact List.any_eq_true.mpr ⟨row, hmem, by simp [huid]⟩

theorem approve_success_postconditions_witness :
    (approveAuthorRequest envNF adminU 10 none st0).resp.status = 200 ∧
    (∃ aid : Nat, (approveAuthorRequest envNF adminU 10 none
        st0).resp.data = .approval 10 (some aid) fet0.req.user_id) ∧
    userRole (approveAuthorRequest envNF adminU 10 none st0).s
      fet0.req.user_id = some sAuthor ∧
    hasAuthorFor (approveAuthorRequest envNF adminU 10 none st0).s
      fet0.req.user_id = true ∧
    reqStatus (approveAuthorRequest envNF adminU 10 none st0).s 10 =
      some sApproved ∧
    reqReviewedBy (approveAuthorRequest envNF adminU 10 none st0).s 10 =
      some (some adminU.id) :=
  approve_success_postconditions envNF adminU 10 none st0 fet0 rfl rfl
    rfl (by decide) (by decide)

/-- C4 counterexample: with the stored procedure available, the same
approval succeeds (200) but the response data is {request_id, user_id}
with no author_id, refuting the claim that every successful approve
returns request_id, author_id and user_id. -/
theorem approve_success_postconditions_counterexample :
    (approveAuthorRequest envRPC adminU 10 none st0).resp.status = 200 ∧
    (approveAuthorRequest envRPC adminU 10 none st0).resp.success =
      true ∧
    (approveAuthorRequest envRPC adminU 10 none st0).resp.data =
      RespData.approval 10 none 2 := by
  refine ⟨by decide, by decide, by decide⟩

/-- C10: when a pending request claims several institutions, the fallback
approval loop overwrites authors.institution_id on every iteration, so the
author row ends up pointing at an institution row whose (name, country,
city) key is that of the LAST claimed institution in list order; earlier
claimed institutions are created or deduplicated but are not referenced by
the author row. -/
theorem approve_last_institution_wins (env : Env) (caller : User)
    (rid : Nat) (notes : Option String) (s : St) (f : FetchedRequest)
    (li : ReqInstitution)
    (hF : env.failOps = []) (hR : env.rpcOk = false)
    (hA : caller.role = sAdmin) (hf : fetchPending s rid = some f)
    (hLast : f.insts.getLast? = some li) :
    ∃ row ∈ (approveAuthorRequest env caller rid notes s).s.authors,
      row.user_id = f.req.user_id ∧
      ∃ inst ∈
        (approveAuthorRequest env caller rid notes s).s.institutions,
        row.institution_id = some inst.id ∧
        instMatches inst li.name li.country li.city = true := by
  rw [approveAuthorRequest_noFault env caller rid notes s f hF hR hA hf]
  show ∃ row ∈ (approveManualResult f caller.id rid notes s).2.authors, _
  rw [approveManualResult_authors f caller.id rid notes s]
  obtain ⟨row, hmem, _, huid, inst, hinstmem, hpt, hkey⟩ :=
    instFold_last (upsertAuthor s f.req.user_id f.req.first_name
        f.req.last_name f.req.academic_title f.userEmail).1.id caller.id
      f.req.user_id f.insts
      (updateUserRole (upsertAuthor s f.req.user_id f.req.first_name
          f.req.last_name f.req.academic_title f.userEmail).2
        f.req.user_id sAuthor).2 li hLast
      (upsertAuthor_mem s f.req.user_id f.req.first_name f.req.last_name
        f.req.academic_title f.userEmail)
  refine ⟨row, hmem, huid, inst, ?_, hpt, hkey⟩
  rw [approveManualResult_institutions f caller.id rid notes s]
  exact hinstmem

theorem approve_last_institution_wins_witness :
    ∃ row ∈ (approveAuthorRequest envNF adminU 10 none st6).s.authors,
      row.user_id = fet6.req.user_id ∧
      ∃ inst ∈
        (approveAuthorRequest envNF adminU 10 none st6).s.institutions,
        row.institution_id = some inst.id ∧
        instMatches inst ri2.name ri2.country ri2.city = true :=
  approve_last_institution_wins envNF adminU 10 none st6 fet6 ri2 rfl rfl
    rfl (by decide) (by decide)

theorem approve_institution_count (env : Env) (caller : User) (rid : Nat)
    (notes : Option String) (s : St) (nm co ci : String)
    (hF : env.failOps = []) (hR : env.rpcOk = false) :
    countInstKey (approveAuthorRequest env caller rid notes s).s nm co ci
      ≤ max (countInstKey s nm co ci) 1 := by
  cases hA : (caller.role == sAdmin) with
  | false =>
      rw [approve_not_admin env caller rid notes s hA]
      exact Nat.le_max_left _ _
  | true =>
      cases hfp : fetchPending s rid with
      | none =>
          rcases approve_not_found env caller rid notes s hfp with h | h <;>
            rw [h] <;> exact Nat.le_max_left _ _
      | some f =>
          have hA2 : caller.role = sAdmin := by simpa using hA
          rw [approveAuthorRequest_noFault env caller rid notes s f hF hR
            hA2 hfp]
          show countInstKey (approveManualResult f caller.id rid notes
            s).2 nm co ci ≤ _
          rw [countInstKey_eq_of _ _ nm co ci
            (approveManualResult_institutions f caller.id rid notes s)]
          refine le_trans (instFold_count _ caller.id nm co ci f.insts _)
            ?_
          have hbase : countInstKey (updateUserRole (upsertAuthor s
              f.req.user_id f.req.first_name f.req.last_name
              f.req.academic_title f.userEmail).2 f.req.user_id
              sAuthor).2 nm co ci = countInstKey s nm co ci := by
            apply countInstKey_eq_of
            rw [show (updateUserRole (upsertAuthor s f.req.user_id
                f.req.first_name f.req.last_name f.req.academic_title
                f.userEmail).2 f.req.user_id sAuthor).2.institutions =
                (upsertAuthor s f.req.user_id f.req.first_name
                  f.req.last_name f.req.academic_title
                  f.userEmail).2.institutions from rfl]
            exact upsertAuthor_institutions s f.req.user_id
              f.req.first_name f.req.last_name f.req.academic_title
              f.userEmail
          rw [hbase]

/-- C6: institution dedup — starting from a state with no institution row
for a given (name, country, city) key, after two fallback approvals (each
free to claim that key any number of times) at most one institutions row
with that key exists: the loop reuses an existing exact match and inserts
only when no match exists. -/
theorem institution_dedup_two_approvals (env1 env2 : Env)
    (c1 c2 : User) (r1 r2 : Nat) (n1 n2 : Option String) (s : St)
    (nm co ci : String)
    (hF1 : env1.failOps = []) (hR1 : env1.rpcOk = false)
    (hF2 : env2.failOps = []) (hR2 : env2.rpcOk = false)
    (hzero : countInstKey s nm co ci = 0) :
    countInstKey (approveAuthorRequest env2 c2 r2 n2
      (approveAuthorRequest env1 c1 r1 n1 s).s).s nm co ci ≤ 1 := by
  have h1 := approve_institution_count env1 c1 r1 n1 s nm co ci hF1 hR1
  rw [hzero] at h1
  have h1b : countInstKey (approveAuthorRequest env1 c1 r1 n1 s).s
      nm co ci ≤ 1 := by simpa using h1
  have h2 := approve_institution_count env2 c2 r2 n2
    (approveAuthorRequest env1 c1 r1 n1 s).s nm co ci hF2 hR2
  have hmax : max (countInstKey (approveAuthorRequest env1 c1 r1 n1 s).s
      nm co ci) 1 ≤ 1 := Nat.max_le.mpr ⟨h1b, le_refl 1⟩
  exact le_trans h2 hmax

theorem institution_dedup_two_approvals_witness :
    countInstKey (approveAuthorRequest envNF adminU 11 none
      (approveAuthorRequest envNF adminU 10 none st6).s).s
      ("MIT") ("US") ("Cambridge") ≤ 1 :=
  institution_dedup_two_approvals envNF envNF adminU adminU 10 11 none
    none st6 ("MIT") ("US") ("Cambridge") rfl rfl rfl rfl (by decide)

end QLBB

namespace QLBB

/-- Articles, associations and files of the fault-free manual approval:
the claimed articles are appended as canonical rows with consecutive ids,
one author_articles association per row, and when at least one article is
claimed every file still attached to the request is retargeted to the
FIRST created article (later iterations find no file still tagged
author_request). -/
theorem approveManualResult_artspec (f : FetchedRequest)
    (adminId rid : Nat) (notes : Option String) (s : St) :
    (approveManualResult f adminId rid notes s).2.articles =
      s.articles ++ mkArticles adminId
        (instFold (upsertAuthor s f.req.user_id f.req.first_name
            f.req.last_name f.req.academic_title f.userEmail).1.id
          adminId f.insts
          (updateUserRole (upsertAuthor s f.req.user_id f.req.first_name
              f.req.last_name f.req.academic_title f.userEmail).2
            f.req.user_id sAuthor).2).nextId f.arts ∧
    (approveManualResult f adminId rid notes s).2.author_articles =
      s.author_articles ++ (mkArticles adminId
        (instFold (upsertAuthor s f.req.user_id f.req.first_name
            f.req.last_name f.req.academic_title f.userEmail).1.id
          adminId f.insts
          (updateUserRole (upsertAuthor s f.req.user_id f.req.first_name
              f.req.last_name f.req.academic_title f.userEmail).2
            f.req.user_id sAuthor).2).nextId f.arts).map
        (fun a => ((upsertAuthor s f.req.user_id f.req.first_name
            f.req.last_name f.req.academic_title f.userEmail).1.id,
          a.id)) ∧
    (f.arts ≠ [] →
      (approveManualResult f adminId rid notes s).2.files =
        s.files.map (retargetFun f.req.id sArticle
          (instFold (upsertAuthor s f.req.user_id f.req.first_name
              f.req.last_name f.req.academic_title f.userEmail).1.id
            adminId f.insts
            (updateUserRole (upsertAuthor s f.req.user_id
                f.req.first_name f.req.last_name f.req.academic_title
                f.userEmail).2 f.req.user_id sAuthor).2).nextId)) := by
  unfold approveManualResult
  refine ⟨?_, ?_, ?_⟩
  · rw [show ∀ y : St, (updateRequestApproved y rid notes
        adminId).2.articles = y.articles from fun y => rfl]
    rw [(bookFold_fields _ _ _ _ _).2.2.2.1,
      (journalFold_fields _ _ _ _).2.2.2.1,
      (articleFold_fields _ _ _ _ _).2.2.2.2.2.2.2.1,
      (instFold_fields _ _ _ _).2.1]
    rw [show ∀ y : St, (updateUserRole y f.req.user_id
        sAuthor).2.articles = y.articles from fun y => rfl]
    rw [upsertAuthor_articles]
  · rw [show ∀ y : St, (updateRequestApproved y rid notes
        adminId).2.author_articles = y.author_articles from fun y => rfl]
    rw [(bookFold_fields _ _ _ _ _).2.2.2.2.1,
      (journalFold_fields _ _ _ _).2.2.2.2.1,
      (articleFold_fields _ _ _ _ _).2.2.2.2.2.2.2.2,
      (instFold_fields _ _ _ _).2.2.1]
    rw [show ∀ y : St, (updateUserRole y f.req.user_id
        sAuthor).2.author_articles = y.author_articles from fun y => rfl]
    rw [upsertAuthor_author_articles]
  · intro hArts
    rw [show ∀ y : St, (updateRequestApproved y rid notes
        adminId).2.files = y.files from fun y => rfl]
    generalize hIS : instFold (upsertAuthor s f.req.user_id
        f.req.first_name f.req.last_name f.req.academic_title
        f.userEmail).1.id adminId f.insts
        (updateUserRole (upsertAuthor s f.req.user_id f.req.first_name
            f.req.last_name f.req.academic_title f.userEmail).2
          f.req.user_id sAuthor).2 = IS0
    have hISfiles : IS0.files = s.files := by
      rw [← hIS, (instFold_fields _ _ _ _).2.2.2.2.2.2.2]
      rw [show ∀ y : St, (updateUserRole y f.req.user_id
          sAuthor).2.files = y.files from fun y => rfl]
      exact upsertAuthor_files s f.req.user_id f.req.first_name
        f.req.last_name f.req.academic_title f.userEmail
    have hart := articleFold_files (upsertAuthor s f.req.user_id
        f.req.first_name f.req.last_name f.req.academic_title
        f.userEmail).1.id f.req.id adminId f.arts IS0 hArts
    have hnc1 : noClaimFiles (articleFold (upsertAuthor s f.req.user_id
        f.req.first_name f.req.last_name f.req.academic_title
        f.userEmail).1.id f.req.id adminId f.arts IS0).files f.req.id =
        true := by
      rw [hart]
      exact retarget_map_noClaim _ _ _ sArticle_not_request _
    have hjou := journalFold_files_noClaim f.req.id adminId f.jous _ hnc1
    have hnc2 : noClaimFiles (journalFold f.req.id adminId f.jous
        (articleFold (upsertAuthor s f.req.user_id f.req.first_name
            f.req.last_name f.req.academic_title f.userEmail).1.id
          f.req.id adminId f.arts IS0)).files f.req.id = true := by
      rw [hjou]
      exact hnc1
    have hbok := bookFold_files_noClaim (upsertAuthor s f.req.user_id
        f.req.first_name f.req.last_name f.req.academic_title
        f.userEmail).1.id f.req.id adminId f.boks _ hnc2
    rw [hbok, hjou, hart, hISfiles]

/-- C1 (amended): approving a pending request with N claimed articles
(N at least 1) on the fault-free fallback path creates exactly N canonical
Article rows (same titles, in order), each linked to the new author by an
author_articles association row, and every file that was attached to the
author_request ends up attached to the FIRST claimed article processed:
the first iteration's retarget clears the content_type = author_request
tag, so the retarget of every later article, journal or book matches no
rows.  This corrects the claim's last-write-wins reading — the last
claimed article never receives the files (see the counterexample). -/
theorem approve_articles_and_first_file (env : Env) (caller : User)
    (rid : Nat) (notes : Option String) (s : St) (f : FetchedRequest)
    (hF : env.failOps = []) (hR : env.rpcOk = false)
    (hA : caller.role = sAdmin) (hf : fetchPending s rid = some f)
    (hArts : f.arts ≠ []) :
    ∃ (newArts : List Article) (a1 : Article) (auId : Nat),
      (approveAuthorRequest env caller rid notes s).s.articles =
        s.articles ++ newArts ∧
      newArts.length = f.arts.length ∧
      newArts.map (fun a => a.title) = f.arts.map (fun a => a.title) ∧
      newArts.head? = some a1 ∧
      (∃ row ∈ (approveAuthorRequest env caller rid notes s).s.authors,
        row.id = auId ∧ row.user_id = f.req.user_id) ∧
      (∀ a ∈ newArts, (auId, a.id) ∈
        (approveAuthorRequest env caller rid notes s).s.author_articles) ∧
      (approveAuthorRequest env caller rid notes s).s.files =
        s.files.map (retargetFun rid sArticle a1.id) := by
  obtain ⟨_, hfid, _, _, _⟩ := fetchPending_inv s rid f hf
  obtain ⟨hart, hlink, hfile⟩ :=
    approveManualResult_artspec f caller.id rid notes s
  have hfile2 := hfile hArts
  rw [hfid] at hfile2
  rw [approveAuthorRequest_noFault env caller rid notes s f hF hR hA hf]
  dsimp only
  rw [hart, hlink, hfile2,
    approveManualResult_authors f caller.id rid notes s]
  cases hcase : f.arts with
  | nil => exact absurd hcase hArts
  | cons a rest =>
      refine ⟨_, _, (upsertAuthor s f.req.user_id f.req.first_name
        f.req.last_name f.req.academic_title f.userEmail).1.id, rfl,
        mkArticles_length _ _ _, mkArticles_titles _ _ _, rfl, ?_, ?_,
        ?_⟩
      · obtain ⟨row, hmem, hid, huid⟩ := instFold_authorMem
          (upsertAuthor s f.req.user_id f.req.first_name f.req.last_name
            f.req.academic_title f.userEmail).1.id caller.id
          f.req.user_id f.insts
          (updateUserRole (upsertAuthor s f.req.user_id f.req.first_name
              f.req.last_name f.req.academic_title f.userEmail).2
            f.req.user_id sAuthor).2
          (upsertAuthor_mem s f.req.user_id f.req.first_name
            f.req.last_name f.req.academic_title f.userEmail)
        exact ⟨row, hmem, hid, huid⟩
      · intro x hx
        exact List.mem_append_right _ (List.mem_map_of_mem _ hx)
      · rfl

theorem approve_articles_and_first_file_witness :
    ∃ (newArts : List Article) (a1 : Article) (auId : Nat),
      (approveAuthorRequest envNF adminU 10 none st0).s.articles =
        st0.articles ++ newArts ∧
      newArts.length = fet0.arts.length ∧
      newArts.map (fun a => a.title) = fet0.arts.map (fun a => a.title) ∧
      newArts.head? = some a1 ∧
      (∃ row ∈ (approveAuthorRequest envNF adminU 10 none st0).s.authors,
        row.id = auId ∧ row.user_id = fet0.req.user_id) ∧
      (∀ a ∈ newArts, (auId, a.id) ∈
        (approveAuthorRequest envNF adminU 10 none
          st0).s.author_articles) ∧
      (approveAuthorRequest envNF adminU 10 none st0).s.files =
        st0.files.map (retargetFun 10 sArticle a1.id) :=
  approve_articles_and_first_file envNF adminU 10 none st0 fet0 rfl rfl
    rfl (by decide) (by decide)

/-- C1 counterexample: request 10 claims articles T1 then T2; after a
fault-free fallback approval the created articles have ids 101 and 102,
and the attached file ends on article 101 — the one created from the
FIRST claimed article — not on 102, the article of the last claimed
article, refuting the last-write-wins reading. -/
theorem approve_articles_and_first_file_counterexample :
    (approveAuthorRequest envNF adminU 10 none st0).resp.status = 200 ∧
    st0.author_request_articles.map (fun a => a.title) =
      [("T1" : String), "T2"] ∧
    (approveAuthorRequest envNF adminU 10 none st0).s.articles.map
      (fun a => (a.id, a.title)) = [(101, ("T1" : String)), (102, "T2")] ∧
    (approveAuthorRequest envNF adminU 10 none st0).s.files =
      [⟨5, some sArticle, some 101⟩] ∧
    ¬ ((approveAuthorRequest envNF adminU 10 none st0).s.files =
      [⟨5, some sArticle, some 102⟩]) := by
  refine ⟨by decide, by decide, by decide, by decide, by decide⟩

end QLBB

namespace QLBB

/-! Outcome analysis for the primitive operations: which primitives can
throw, and what they leave in the context when they do. -/

theorem dbStep_out (env : Env) (f : St → α × St) (c : Ctx) :
    dbStep env f c = .err { c with n := c.n + 1 } ∨
    dbStep env f c =
      .ok (f c.s).1 { c with n := c.n + 1, s := (f c.s).2 } := by
  unfold dbStep
  split
  · exact Or.inl rfl
  · exact Or.inr rfl

theorem dbCall_out (env : Env) (f : St → α × St) (c : Ctx) :
    dbCall env f c = .ok (.error ()) { c with n := c.n + 1 } ∨
    dbCall env f c =
      .ok (.ok (f c.s).1) { c with n := c.n + 1, s := (f c.s).2 } := by
  unfold dbCall
  split
  · exact Or.inl rfl
  · exact Or.inr rfl

theorem emailOp_out (env : Env) (m : EmailMsg) (c : Ctx) :
    ∃ em, emailOp env m c = .ok () ⟨c.n, c.s, em⟩ := by
  unfold emailOp
  split
  · exact ⟨c.emails, rfl⟩
  · exact ⟨c.emails ++ [m], rfl⟩

/-! author_requests preservation across the fallback loops. -/

theorem instLoop_preserves_reqs (env : Env) (a ad : Nat)
    (is : List ReqInstitution) (X : List AuthorRequest) :
    MPreserves (instLoop env a ad is)
      (fun st => st.author_requests = X) :=
  MPreserves_instLoop env a ad _ (fun _ _ h => h) (fun _ _ h => h) is

theorem articleLoop_preserves_reqs (env : Env) (a rid ad : Nat)
    (as : List ReqArticle) (X : List AuthorRequest) :
    MPreserves (articleLoop env a rid ad as)
      (fun st => st.author_requests = X) :=
  MPreserves_articleLoop env a rid ad _ (fun _ _ h => h)
    (fun _ _ _ h => h) (fun _ _ _ h => h) as

theorem journalLoop_preserves_reqs (env : Env) (rid ad : Nat)
    (js : List ReqJournal) (X : List AuthorRequest) :
    MPreserves (journalLoop env rid ad js)
      (fun st => st.author_requests = X) :=
  MPreserves_journalLoop env rid ad _ (fun _ _ h => h)
    (fun _ _ _ h => h) js

theorem bookLoop_preserves_reqs (env : Env) (a rid ad : Nat)
    (bs : List ReqBook) (X : List AuthorRequest) :
    MPreserves (bookLoop env a rid ad bs)
      (fun st => st.author_requests = X) :=
  MPreserves_bookLoop env a rid ad _ (fun _ _ h => h)
    (fun _ _ _ h => h) (fun _ _ _ h => h) bs

/-- Spine combinator: a bind whose head preserves P and whose continuation
either answers 200 or throws leaving P, itself either answers 200 or
throws leaving P. -/
theorem seq_out (P : St → Prop) (x : M α) (k : α → M Response)
    (hx : MPreserves x P)
    (hk : ∀ a c, P c.s →
      (k a c).statusOf = some 200 ∨
      ((k a c).isErr = true ∧ P (k a c).ctx.s)) :
    ∀ c, P c.s →
      ((x >>= k) c).statusOf = some 200 ∨
      (((x >>= k) c).isErr = true ∧ P ((x >>= k) c).ctx.s) := by
  intro c hc
  have hP := hx c hc
  rw [show ((x >>= k) c) =
      (match x c with
       | .ok a c2 => k a c2
       | .err c2 => Out.err c2) from rfl]
  cases hxc : x c with
  | ok a c2 =>
      rw [hxc] at hP
      exact hk a c2 hP
  | err c2 =>
      rw [hxc] at hP
      exact Or.inr ⟨rfl, hP⟩

/-- The manual approval sequence either returns its 200 response or throws
with the author_requests table exactly as at entry: the status update is
the only author_requests write of the sequence and the operations after it
cannot throw. -/
theorem approveFallback_out (env : Env) (adminId rid : Nat)
    (f : FetchedRequest) (notes : Option String) (X : List AuthorRequest) :
    ∀ c : Ctx, c.s.author_requests = X →
      (approveFallback env adminId rid f notes c).statusOf = some 200 ∨
      ((approveFallback env adminId rid f notes c).isErr = true ∧
       (approveFallback env adminId rid f notes c).ctx.s.author_requests
         = X) := by
  unfold approveFallback
  refine seq_out (fun st => st.author_requests = X) _ _
    (MPreserves_dbStep env _ _ ?_) ?_
  · intro s h
    rw [upsertAuthor_author_requests]
    exact h
  · intro au c2 h2
    refine seq_out (fun st => st.author_requests = X) _ _
      (MPreserves_dbStep env _ _ (fun _ h => h)) ?_ c2 h2
    intro u3 c3 h3
    refine seq_out (fun st => st.author_requests = X) _ _
      (instLoop_preserves_reqs env au.id adminId f.insts X) ?_ c3 h3
    intro u4 c4 h4
    refine seq_out (fun st => st.author_requests = X) _ _
      (articleLoop_preserves_reqs env au.id f.req.id adminId f.arts X)
      ?_ c4 h4
    intro u5 c5 h5
    refine seq_out (fun st => st.author_requests = X) _ _
      (journalLoop_preserves_reqs env f.req.id adminId f.jous X) ?_ c5 h5
    intro u6 c6 h6
    refine seq_out (fun st => st.author_requests = X) _ _
      (bookLoop_preserves_reqs env au.id f.req.id adminId f.boks X)
      ?_ c6 h6
    intro u7 c7 h7
    rcases dbStep_out env
      (fun s => updateRequestApproved s rid notes adminId) c7 with hu | hu
    · refine Or.inr ⟨?_, ?_⟩
      · simp only [M_bind_apply, hu]
        rfl
      · simp only [M_bind_apply, hu, Out_ctx_err]
        exact h7
    · refine Or.inl ?_
      obtain ⟨em, he⟩ := emailOp_out env
        (.approval f.userEmail f.req.first_name)
        ⟨c7.n + 1, (updateRequestApproved c7.s rid notes adminId).2,
          c7.emails⟩
      simp only [M_bind_apply, hu, he, M_pure_apply]
      rfl

end QLBB

namespace QLBB

theorem rpcCall_out (env : Env) (f : FetchedRequest) (adminId : Nat)
    (notes : Option String) (c : Ctx) :
    rpcCall env f adminId notes c =
      .ok true ⟨c.n + 1,
        approveTransactionProc f adminId (notes.getD "") c.s, c.emails⟩ ∨
    rpcCall env f adminId notes c = .ok false { c with n := c.n + 1 } := by
  unfold rpcCall
  split
  · exact Or.inl rfl
  · exact Or.inr rfl

/-- A handler outcome known to be a success with a response of some other
status neither answers 500 nor is a thrown error. -/
theorem ok_out (o : Out Response) (r : Response) (c2 : Ctx)
    (ho : o = Out.ok r c2) (hr : ¬ r.status = 500) (Q : Prop) :
    (o.statusOf = some 500 → False) ∧ (o.isErr = true → Q) := by
  subst ho
  refine ⟨fun h => hr (Option.some.inj h), fun h => Bool.noConfusion h⟩

theorem statusOf_none_of_isErr (o : Out Response) (h : o.isErr = true) :
    o.statusOf = none := by
  cases o with
  | ok r c => exact Bool.noConfusion h
  | err c => rfl

/-- The approval handler body never answers 500 itself, and whenever it
throws, the author_requests table in the thrown context is the table it
started from. -/
theorem approveBody_out (env : Env) (caller : User) (rid : Nat)
    (notes : Option String) (X : List AuthorRequest) :
    ∀ c : Ctx, c.s.author_requests = X →
      ((approveBody env caller rid notes c).statusOf = some 500 → False) ∧
      ((approveBody env caller rid notes c).isErr = true →
       (approveBody env caller rid notes c).ctx.s.author_requests = X) := by
  intro c hc
  unfold approveBody
  cases hA : caller.role == sAdmin with
  | false => exact ok_out _ _ _ rfl (by simp [resp403]) _
  | true =>
      rcases dbCall_out env (fun s => (fetchPending s rid, s)) c
        with h1 | h1 <;>
        simp only [eq_self_iff_true, if_true, M_bind_apply, h1]
      · exact ok_out _ _ _ rfl (by simp [resp404]) _
      · cases hfp : fetchPending c.s rid with
        | none => exact ok_out _ _ _ rfl (by simp [resp404]) _
        | some f =>
            rcases rpcCall_out env f caller.id notes ⟨c.n + 1, c.s, c.emails⟩
              with h2 | h2
            · obtain ⟨em, he⟩ := emailOp_out env
                (.approval f.userEmail f.req.first_name)
                ⟨c.n + 1 + 1,
                  approveTransactionProc f caller.id (notes.getD "") c.s,
                  c.emails⟩
              simp only [M_bind_apply, h2, eq_self_iff_true, if_true, he,
                M_pure_apply]
              exact ok_out _ _ _ rfl (by simp) _
            · have hfb := approveFallback_out env caller.id rid f notes X
                ⟨c.n + 1 + 1, c.s, c.emails⟩ hc
              simp only [M_bind_apply, h2, Bool.false_eq_true, if_false]
              rcases hfb with h200 | ⟨herr, hframe⟩
              · refine ⟨fun h => ?_, fun h => ?_⟩
                · rw [h200] at h
                  exact absurd h (by decide)
                · rw [statusOf_none_of_isErr _ h] at h200
                  exact absurd h200 (by decide)
              · refine ⟨fun h => ?_, fun _ => hframe⟩
                rw [statusOf_none_of_isErr _ herr] at h
                exact absurd h (by decide)

/-- C2: if approval answers 500, the request row is untouched (its status
is still whatever it was, in particular pending), even though earlier
steps of the manual sequence may have already been applied; concretely,
with the article insert failing, the caller gets 500 while the user has
already been made an author with an authors row, and the request is still
pending. -/
theorem approve_500_frame :
    (∀ (env : Env) (caller : User) (rid : Nat) (notes : Option String)
      (s : St),
      (approveAuthorRequest env caller rid notes s).resp.status = 500 →
      (approveAuthorRequest env caller rid notes s).s.author_requests =
        s.author_requests ∧
      reqStatus (approveAuthorRequest env caller rid notes s).s rid =
        reqStatus s rid) ∧
    ((approveAuthorRequest envFailArt adminU 10 none st0).resp.status =
      500 ∧
     reqStatus (approveAuthorRequest envFailArt adminU 10 none st0).s 10 =
       some sPending ∧
     userRole (approveAuthorRequest envFailArt adminU 10 none st0).s 2 =
       some sAuthor ∧
     hasAuthorFor (approveAuthorRequest envFailArt adminU 10 none st0).s 2
       = true) := by
  constructor
  · intro env caller rid notes s h500
    have hb := approveBody_out env caller rid notes s.author_requests
      ⟨0, s, []⟩ rfl
    unfold approveAuthorRequest runHandler at h500 ⊢
    cases hbo : approveBody env caller rid notes ⟨0, s, []⟩ with
    | ok r c =>
        rw [hbo] at hb
        simp only [hbo] at h500
        exact (hb.1 (by rw [show (Out.ok r c).statusOf = some r.status from
          rfl, h500])).elim
    | err c =>
        rw [hbo] at hb
        simp only [hbo]
        have hfr : c.s.author_requests = s.author_requests := hb.2 rfl
        refine ⟨hfr, ?_⟩
        unfold reqStatus
        rw [hfr]
  · decide

/-- The universal half of approve_500_frame at the article-fault fixture:
the author_requests table of the 500 outcome is the one the handler
started from. -/
theorem approve_500_frame_witness :
    (approveAuthorRequest envFailArt adminU 10 none st0).s.author_requests
      = st0.author_requests ∧
    reqStatus (approveAuthorRequest envFailArt adminU 10 none st0).s 10 =
      reqStatus st0 10 :=
  approve_500_frame.1 envFailArt adminU 10 none st0 (by decide)

end QLBB

namespace QLBB

/-- C9: submission is not atomic across its inserts: with the
author_request_articles insert failing right after the request insert, the
handler answers 500, yet the pending author_requests row persists in the
final state, and any later well-formed submission by the same user is
answered with the duplicate conflict. -/
theorem create_partial_failure_persists (env : Env) (caller : User)
    (p : CreatePayload) (s : St)
    (hfn : p.first_name ≠ "") (hln : p.last_name ≠ "")
    (hro : (caller.role == sAuthor || caller.role == sAdmin) = false)
    (hArts : p.articles.isEmpty = false)
    (hF : env.failOps = [2])
    (hdup : checkDuplicateRequests s caller.id = []) :
    (createAuthorRequest env caller p s).resp.status = 500 ∧
    (createAuthorRequest env caller p s).s.author_requests =
      s.author_requests ++
        [newRequestRow s caller.id p.academic_title p.first_name
          p.last_name p.bio p.reason_for_request] ∧
    (newRequestRow s caller.id p.academic_title p.first_name p.last_name
      p.bio p.reason_for_request).status = sPending ∧
    (newRequestRow s caller.id p.academic_title p.first_name p.last_name
      p.bio p.reason_for_request).user_id = caller.id ∧
    ∀ (env2 : Env) (p2 : CreatePayload),
      env2.failOps.contains 0 = false → p2.first_name ≠ "" →
      p2.last_name ≠ "" →
      createAuthorRequest env2 caller p2
          (createAuthorRequest env caller p s).s =
        ⟨resp400c, (createAuthorRequest env caller p s).s, []⟩ := by
  have hv1 : (p.first_name == "") = false := by simpa using hfn
  have hv2 : (p.last_name == "") = false := by simpa using hln
  have hc0 : (([2] : List Nat).contains 0) = false := by decide
  have hc1 : (([2] : List Nat).contains 1) = false := by decide
  have hc2 : (([2] : List Nat).contains 2) = true := by decide
  have hmain : createAuthorRequest env caller p s =
      ⟨resp500, (insertRequestRow s (newRequestRow s caller.id
        p.academic_title p.first_name p.last_name p.bio
        p.reason_for_request)).2, []⟩ := by
    unfold createAuthorRequest runHandler createBody createInsertSeq
    simp [hv1, hv2, hF, hdup, hro, hArts, hc0, hc1, hc2, dbCall, dbStep]
  refine ⟨by rw [hmain]; rfl, by rw [hmain]; rfl, rfl, rfl, ?_⟩
  intro env2 p2 h0 hfn2 hln2
  apply createAuthorRequest_conflict env2 caller p2 _ hfn2 hln2 h0
  refine ⟨newRequestRow s caller.id p.academic_title p.first_name
    p.last_name p.bio p.reason_for_request, ?_, rfl, Or.inl rfl⟩
  rw [hmain]
  exact List.mem_append_right _ (List.mem_singleton_self _)

/-- create_partial_failure_persists at the child-insert fault fixture: the
first submission answers 500 and the follow-up fault-free submission is
rejected with the conflict response. -/
theorem create_partial_failure_persists_witness :
    (createAuthorRequest envFailChild reqU pC stE).resp.status = 500 ∧
    createAuthorRequest envNF reqU pC
        (createAuthorRequest envFailChild reqU pC stE).s =
      ⟨resp400c, (createAuthorRequest envFailChild reqU pC stE).s, []⟩ :=
  ⟨(create_partial_failure_persists envFailChild reqU pC stE (by decide)
      (by decide) rfl rfl rfl rfl).1,
   (create_partial_failure_persists envFailChild reqU pC stE (by decide)
      (by decide) rfl rfl rfl rfl).2.2.2.2 envNF pC rfl (by decide)
      (by decide)⟩

end QLBB

namespace QLBB

/-! Email-fault bisimulation: computations run under environments that
agree on the database faults (failOps, rpcOk) but may disagree on
emailFails produce the same result and the same database state. -/

theorem MEq_pure (a : α) : MEq (M.pure a : M α) (M.pure a) :=
  fun _ _ hn hs => ⟨rfl, hn, hs⟩

theorem MEq_bind {x y : M α} {k l : α → M β} (hxy : MEq x y)
    (hkl : ∀ a, MEq (k a) (l a)) : MEq (x >>= k) (y >>= l) := by
  intro c c2 hn hs
  have h := hxy c c2 hn hs
  rw [show (x >>= k) c = (match x c with
    | .ok a c3 => k a c3
    | .err c3 => Out.err c3) from rfl]
  rw [show (y >>= l) c2 = (match y c2 with
    | .ok a c3 => l a c3
    | .err c3 => Out.err c3) from rfl]
  cases hx : x c with
  | ok a c3 =>
      cases hy : y c2 with
      | ok a2 c4 =>
          rw [hx, hy] at h
          obtain ⟨ha, hn2, hs2⟩ := h
          subst ha
          exact hkl a c3 c4 hn2 hs2
      | err c4 =>
          rw [hx, hy] at h
          exact h.elim
  | err c3 =>
      cases hy : y c2 with
      | ok a2 c4 =>
          rw [hx, hy] at h
          exact h.elim
      | err c4 =>
          rw [hx, hy] at h
          exact h

theorem MEq_dbStep (env1 env2 : Env) (hOps : env1.failOps = env2.failOps)
    (f : St → α × St) : MEq (dbStep env1 f) (dbStep env2 f) := by
  intro c c2 hn hs
  unfold dbStep
  rw [hOps, hn, hs]
  cases hb : env2.failOps.contains c2.n with
  | true => exact ⟨rfl, rfl⟩
  | false => exact ⟨rfl, rfl, rfl⟩

theorem MEq_dbSoft (env1 env2 : Env) (hOps : env1.failOps = env2.failOps)
    (f : St → α × St) : MEq (dbSoft env1 f) (dbSoft env2 f) := by
  intro c c2 hn hs
  unfold dbSoft
  rw [hOps, hn, hs]
  cases hb : env2.failOps.contains c2.n with
  | true => exact ⟨rfl, rfl, rfl⟩
  | false => exact ⟨rfl, rfl, rfl⟩

theorem MEq_dbCall (env1 env2 : Env) (hOps : env1.failOps = env2.failOps)
    (f : St → α × St) : MEq (dbCall env1 f) (dbCall env2 f) := by
  intro c c2 hn hs
  unfold dbCall
  rw [hOps, hn, hs]
  cases hb : env2.failOps.contains c2.n with
  | true => exact ⟨rfl, rfl, rfl⟩
  | false => exact ⟨rfl, rfl, rfl⟩

theorem MEq_emailOp (env1 env2 : Env) (m : EmailMsg) :
    MEq (emailOp env1 m) (emailOp env2 m) := by
  intro c c2 hn hs
  unfold emailOp
  cases h1 : env1.emailFails <;> cases h2 : env2.emailFails <;>
    exact ⟨rfl, hn, hs⟩

theorem MEq_rpcCall (env1 env2 : Env)
    (hOps : env1.failOps = env2.failOps) (hRpc : env1.rpcOk = env2.rpcOk)
    (f : FetchedRequest) (adminId : Nat) (notes : Option String) :
    MEq (rpcCall env1 f adminId notes) (rpcCall env2 f adminId notes) := by
  intro c c2 hn hs
  unfold rpcCall
  rw [hOps, hRpc, hn, hs]
  cases hb : env2.rpcOk && !env2.failOps.contains c2.n with
  | true => exact ⟨rfl, rfl, rfl⟩
  | false => exact ⟨rfl, rfl, rfl⟩

theorem MEq_instLoop (env1 env2 : Env)
    (hOps : env1.failOps = env2.failOps) (a ad : Nat)
    (is : List ReqInstitution) :
    MEq (instLoop env1 a ad is) (instLoop env2 a ad is) := by
  induction is with
  | nil => exact MEq_pure ()
  | cons i rest ih =>
      simp only [instLoop]
      refine MEq_bind (MEq_dbStep env1 env2 hOps _) ?_
      intro found
      cases found with
      | some ex =>
          refine MEq_bind (MEq_pure ex.id) ?_
          intro y
          exact MEq_bind (MEq_dbStep env1 env2 hOps _) (fun _ => ih)
      | none =>
          refine MEq_bind (MEq_dbStep env1 env2 hOps _) ?_
          intro ex
          refine MEq_bind (MEq_pure ex.id) ?_
          intro y
          exact MEq_bind (MEq_dbStep env1 env2 hOps _) (fun _ => ih)

theorem MEq_articleLoop (env1 env2 : Env)
    (hOps : env1.failOps = env2.failOps) (a rid ad : Nat)
    (as : List ReqArticle) :
    MEq (articleLoop env1 a rid ad as) (articleLoop env2 a rid ad as) := by
  induction as with
  | nil => exact MEq_pure ()
  | cons x rest ih =>
      simp only [articleLoop]
      refine MEq_bind (MEq_dbStep env1 env2 hOps _) ?_
      intro row
      refine MEq_bind (MEq_dbStep env1 env2 hOps _) ?_
      intro u
      exact MEq_bind (MEq_dbSoft env1 env2 hOps _) (fun _ => ih)

theorem MEq_journalLoop (env1 env2 : Env)
    (hOps : env1.failOps = env2.failOps) (rid ad : Nat)
    (js : List ReqJournal) :
    MEq (journalLoop env1 rid ad js) (journalLoop env2 rid ad js) := by
  induction js with
  | nil => exact MEq_pure ()
  | cons x rest ih =>
      simp only [journalLoop]
      refine MEq_bind (MEq_dbStep env1 env2 hOps _) ?_
      intro row
      exact MEq_bind (MEq_dbSoft env1 env2 hOps _) (fun _ => ih)

theorem MEq_bookLoop (env1 env2 : Env)
    (hOps : env1.failOps = env2.failOps) (a rid ad : Nat)
    (bs : List ReqBook) :
    MEq (bookLoop env1 a rid ad bs) (bookLoop env2 a rid ad bs) := by
  induction bs with
  | nil => exact MEq_pure ()
  | cons x rest ih =>
      simp only [bookLoop]
      refine MEq_bind (MEq_dbStep env1 env2 hOps _) ?_
      intro row
      refine MEq_bind (MEq_dbStep env1 env2 hOps _) ?_
      intro u
      exact MEq_bind (MEq_dbSoft env1 env2 hOps _) (fun _ => ih)

theorem MEq_approveFallback (env1 env2 : Env)
    (hOps : env1.failOps = env2.failOps) (adminId rid : Nat)
    (f : FetchedRequest) (notes : Option String) :
    MEq (approveFallback env1 adminId rid f notes)
      (approveFallback env2 adminId rid f notes) := by
  unfold approveFallback
  refine MEq_bind (MEq_dbStep env1 env2 hOps _) ?_
  intro au
  refine MEq_bind (MEq_dbStep env1 env2 hOps _) ?_
  intro u1
  refine MEq_bind (MEq_instLoop env1 env2 hOps au.id adminId f.insts) ?_
  intro u2
  refine MEq_bind
    (MEq_articleLoop env1 env2 hOps au.id f.req.id adminId f.arts) ?_
  intro u3
  refine MEq_bind
    (MEq_journalLoop env1 env2 hOps f.req.id adminId f.jous) ?_
  intro u4
  refine MEq_bind
    (MEq_bookLoop env1 env2 hOps au.id f.req.id adminId f.boks) ?_
  intro u5
  refine MEq_bind (MEq_dbStep env1 env2 hOps _) ?_
  intro u6
  exact MEq_bind (MEq_emailOp env1 env2 _) (fun _ => MEq_pure _)

end QLBB

namespace QLBB

theorem MEq_adminTail (env1 env2 : Env)
    (hOps : env1.failOps = env2.failOps) (rid : Nat) :
    MEq ((do
      let _ ← dbStep env1 (fun s => (rid, s))
      let admins ← dbSoft env1 getAdminEmails
      let _ ← match admins with
        | some l => if l.isEmpty then M.pure ()
                    else emailOp env1 (.adminNotify l rid)
        | none => M.pure ()
      M.pure (⟨201, true, none, .request rid⟩ : Response)) : M Response)
      (do
      let _ ← dbStep env2 (fun s => (rid, s))
      let admins ← dbSoft env2 getAdminEmails
      let _ ← match admins with
        | some l => if l.isEmpty then M.pure ()
                    else emailOp env2 (.adminNotify l rid)
        | none => M.pure ()
      M.pure (⟨201, true, none, .request rid⟩ : Response)) := by
  refine MEq_bind (MEq_dbStep env1 env2 hOps _) ?_
  intro x
  refine MEq_bind (MEq_dbSoft env1 env2 hOps _) ?_
  intro admins
  cases admins with
  | none =>
      refine MEq_bind (MEq_pure ()) ?_
      intro y
      exact MEq_pure _
  | some l =>
      show MEq
        ((if l.isEmpty then (do
            let _ ← (M.pure () : M Unit)
            M.pure (⟨201, true, none, .request rid⟩ : Response))
          else (do
            let _ ← emailOp env1 (.adminNotify l rid)
            M.pure (⟨201, true, none, .request rid⟩ : Response)))
          : M Response)
        ((if l.isEmpty then (do
            let _ ← (M.pure () : M Unit)
            M.pure (⟨201, true, none, .request rid⟩ : Response))
          else (do
            let _ ← emailOp env2 (.adminNotify l rid)
            M.pure (⟨201, true, none, .request rid⟩ : Response)))
          : M Response)
      cases hbe : l.isEmpty with
      | true => exact MEq_bind (MEq_pure ()) (fun _ => MEq_pure _)
      | false =>
          exact MEq_bind (MEq_emailOp env1 env2 _) (fun _ => MEq_pure _)

theorem MEq_createInsertSeq (env1 env2 : Env)
    (hOps : env1.failOps = env2.failOps) (caller : User)
    (p : CreatePayload) :
    MEq (createInsertSeq env1 caller p) (createInsertSeq env2 caller p)
    := by
  unfold createInsertSeq
  refine MEq_bind (MEq_dbStep env1 env2 hOps _) ?_
  intro ar
  cases hb1 : p.articles.isEmpty <;> cases hb2 : p.journals.isEmpty <;>
    cases hb3 : p.books.isEmpty <;> cases hb4 : p.institutions.isEmpty <;>
    cases hb5 : p.file_ids.isEmpty <;>
    repeat (first
      | exact MEq_adminTail env1 env2 hOps ar.id
      | (refine MEq_bind (MEq_dbStep env1 env2 hOps _) ?_; intro _x)
      | (refine MEq_bind (MEq_pure _) ?_; intro _x))

theorem MEq_createBody (env1 env2 : Env)
    (hOps : env1.failOps = env2.failOps) (caller : User)
    (p : CreatePayload) :
    MEq (createBody env1 caller p) (createBody env2 caller p) := by
  unfold createBody
  cases hv : p.first_name == "" || p.last_name == "" with
  | true => exact MEq_pure resp400v
  | false =>
      refine MEq_bind (MEq_dbCall env1 env2 hOps _) ?_
      intro chk
      cases chk with
      | error e => exact MEq_pure resp400d
      | ok existing =>
          show MEq
            (if !existing.isEmpty &&
                existing.any (fun r => r.status == sPending)
             then M.pure resp400c
             else if !existing.isEmpty &&
                existing.any (fun r => r.status == sApproved)
             then M.pure resp400c
             else if caller.role == sAuthor || caller.role == sAdmin
             then M.pure resp400c
             else createInsertSeq env1 caller p)
            (if !existing.isEmpty &&
                existing.any (fun r => r.status == sPending)
             then M.pure resp400c
             else if !existing.isEmpty &&
                existing.any (fun r => r.status == sApproved)
             then M.pure resp400c
             else if caller.role == sAuthor || caller.role == sAdmin
             then M.pure resp400c
             else createInsertSeq env2 caller p)
          cases h1 : !existing.isEmpty &&
              existing.any (fun r => r.status == sPending) with
          | true => exact MEq_pure resp400c
          | false =>
              cases h2 : !existing.isEmpty &&
                  existing.any (fun r => r.status == sApproved) with
              | true => exact MEq_pure resp400c
              | false =>
                  cases h3 : caller.role == sAuthor ||
                      caller.role == sAdmin with
                  | true => exact MEq_pure resp400c
                  | false =>
                      exact MEq_createInsertSeq env1 env2 hOps caller p

theorem MEq_approveBody (env1 env2 : Env)
    (hOps : env1.failOps = env2.failOps) (hRpc : env1.rpcOk = env2.rpcOk)
    (caller : User) (rid : Nat) (notes : Option String) :
    MEq (approveBody env1 caller rid notes)
      (approveBody env2 caller rid notes) := by
  unfold approveBody
  cases hA : caller.role == sAdmin with
  | false => exact MEq_pure resp403
  | true =>
      refine MEq_bind (MEq_dbCall env1 env2 hOps _) ?_
      intro fr
      cases fr with
      | error e => exact MEq_pure resp404
      | ok o =>
          cases o with
          | none => exact MEq_pure resp404
          | some f =>
              refine MEq_bind
                (MEq_rpcCall env1 env2 hOps hRpc f caller.id notes) ?_
              intro rpcDone
              cases rpcDone with
              | true =>
                  refine MEq_bind (MEq_emailOp env1 env2 _) ?_
                  intro y
                  exact MEq_pure _
              | false =>
                  exact MEq_approveFallback env1 env2 hOps caller.id rid
                    f notes

theorem MEq_rejectBody (env1 env2 : Env)
    (hOps : env1.failOps = env2.failOps) (caller : User) (rid : Nat)
    (notes : Option String) :
    MEq (rejectBody env1 caller rid notes)
      (rejectBody env2 caller rid notes) := by
  unfold rejectBody
  cases hV : notes == none || notes == some "" with
  | true => exact MEq_pure resp400v
  | false =>
      cases hA : caller.role == sAdmin with
      | false => exact MEq_pure resp403
      | true =>
          refine MEq_bind (MEq_dbCall env1 env2 hOps _) ?_
          intro fr
          cases fr with
          | error e => exact MEq_pure resp404
          | ok o =>
              cases o with
              | none => exact MEq_pure resp404
              | some rq =>
                  refine MEq_bind (MEq_dbStep env1 env2 hOps _) ?_
                  intro u
                  refine MEq_bind (MEq_emailOp env1 env2 _) ?_
                  intro y
                  exact MEq_pure _

/-- Handlers whose bodies are database-equivalent produce the same
response and the same final state from any initial state. -/
theorem runHandler_same (b1 b2 : M Response) (h : MEq b1 b2) (s : St) :
    (runHandler b1 s).resp = (runHandler b2 s).resp ∧
    (runHandler b1 s).s = (runHandler b2 s).s := by
  have hs := h ⟨0, s, []⟩ ⟨0, s, []⟩ rfl rfl
  unfold runHandler
  cases h1 : b1 ⟨0, s, []⟩ with
  | ok r c =>
      cases h2 : b2 ⟨0, s, []⟩ with
      | ok r2 c2 =>
          rw [h1, h2] at hs
          obtain ⟨hr, hn2, hs2⟩ := hs
          subst hr
          exact ⟨rfl, hs2⟩
      | err c2 =>
          rw [h1, h2] at hs
          exact hs.elim
  | err c =>
      cases h2 : b2 ⟨0, s, []⟩ with
      | ok r2 c2 =>
          rw [h1, h2] at hs
          exact hs.elim
      | err c2 =>
          rw [h1, h2] at hs
          exact ⟨rfl, hs.2⟩

/-- C8: whether notification emails succeed or throw never changes the
response or the database effects of the primary operation, for submission
(admin broadcast), approval (approval email) and rejection (rejection
email): only the email log differs between an environment where sends
succeed and one where they throw. -/
theorem email_failure_never_changes_outcome (ops : List Nat)
    (rpc e1 e2 : Bool) (caller : User) (p : CreatePayload) (rid : Nat)
    (notes : Option String) (s : St) :
    ((createAuthorRequest ⟨ops, rpc, e1⟩ caller p s).resp =
       (createAuthorRequest ⟨ops, rpc, e2⟩ caller p s).resp ∧
     (createAuthorRequest ⟨ops, rpc, e1⟩ caller p s).s =
       (createAuthorRequest ⟨ops, rpc, e2⟩ caller p s).s) ∧
    ((approveAuthorRequest ⟨ops, rpc, e1⟩ caller rid notes s).resp =
       (approveAuthorRequest ⟨ops, rpc, e2⟩ caller rid notes s).resp ∧
     (approveAuthorRequest ⟨ops, rpc, e1⟩ caller rid notes s).s =
       (approveAuthorRequest ⟨ops, rpc, e2⟩ caller rid notes s).s) ∧
    ((rejectAuthorRequest ⟨ops, rpc, e1⟩ caller rid notes s).resp =
       (rejectAuthorRequest ⟨ops, rpc, e2⟩ caller rid notes s).resp ∧
     (rejectAuthorRequest ⟨ops, rpc, e1⟩ caller rid notes s).s =
       (rejectAuthorRequest ⟨ops, rpc, e2⟩ caller rid notes s).s) :=
  ⟨runHandler_same _ _
      (MEq_createBody ⟨ops, rpc, e1⟩ ⟨ops, rpc, e2⟩ rfl caller p) s,
   runHandler_same _ _
      (MEq_approveBody ⟨ops, rpc, e1⟩ ⟨ops, rpc, e2⟩ rfl rfl caller rid
        notes) s,
   runHandler_same _ _
      (MEq_rejectBody ⟨ops, rpc, e1⟩ ⟨ops, rpc, e2⟩ rfl caller rid
        notes) s⟩

end QLBB
